import Mathlib

/-
Verification development for the TADB-CBIR leaf-disease retrieval engine.

The embedding models, over exact rational arithmetic:
  * database/chroma.py  — query-result post-processing (query_embedding's
    metadata insertion, calculate_similarity, analyze_query_results,
    extract_features);
  * engine/processing_engine.py — extract_disease_features (histogram, HSV
    statistics, GLCM, LBP and shape blocks of the 128-value signature);
  * evaluation_system.py — extract_confidence_features and
    predict_revocation_risk.

Modelling conventions:
  * Python floats are modelled as ℚ.  `round(x, 1)` is modelled by `round1`
    (round-half-to-even at one decimal, as Python's `round` does).
  * `np.sqrt` / `np.log2` / `np.pi` appear only inside feature values that no
    claim constrains numerically; they are taken as parameters (`sq`, `lg`,
    `piq`) of the feature extractor, so every statement below holds for every
    interpretation of them.  The two comparisons `np.std(xs) > 15` and
    `np.std(xs) > 0.5` of the risk predictor are embedded equivalently as
    `variance > 225` and `variance > 1/4` (sqrt is monotone and both bounds
    are nonnegative), so no square root is needed there.
  * numpy grids are functions ℕ → ℕ → _ together with explicit bounds; masks
    are Bool-valued grids.
-/

attribute [local semireducible] Rat.add Rat.mul Rat.inv Rat.sub

/-! ### Rounding: Python's `round(x, 1)` -/

/-- Kernel-computable floor of a rational number (equal to `Int.floor`). -/
def qfloor (q : ℚ) : ℤ := q.num / q.den

theorem qfloor_eq (q : ℚ) : qfloor q = ⌊q⌋ := Rat.floor_def.symm

/-- Round to the nearest integer, ties to even — the semantics of Python's
built-in `round` on exact values. -/
def roundHalfEven (q : ℚ) : ℤ :=
  let f := qfloor q
  let r := q - f
  if r < 1/2 then f else if 1/2 < r then f + 1 else if f % 2 = 0 then f else f + 1

/-- Python's `round(x, 1)`: round at the first decimal place, ties to even. -/
def round1 (q : ℚ) : ℚ := (roundHalfEven (10 * q)) / 10

theorem le_roundHalfEven {n : ℤ} {q : ℚ} (h : (n : ℚ) ≤ q) : n ≤ roundHalfEven q := by
  have hf : n ≤ qfloor q := by rw [qfloor_eq]; exact Int.le_floor.mpr h
  unfold roundHalfEven
  dsimp only
  split_ifs <;> omega

theorem roundHalfEven_le {n : ℤ} {q : ℚ} (h : q ≤ (n : ℚ)) : roundHalfEven q ≤ n := by
  have hfl : (qfloor q : ℚ) ≤ q := by rw [qfloor_eq]; exact Int.floor_le q
  have hf : qfloor q ≤ n := by
    rw [qfloor_eq]
    calc ⌊q⌋ ≤ ⌊(n : ℚ)⌋ := Int.floor_le_floor h
    _ = n := Int.floor_intCast n
  unfold roundHalfEven
  dsimp only
  split_ifs with h1 h2 h3
  · exact hf
  · -- the tie / round-up branches need `qfloor q < n`
    have hlt : (qfloor q : ℚ) < q := by
      by_contra hc
      push_neg at hc
      have : q = (qfloor q : ℚ) := le_antisymm hc hfl
      rw [this] at h2
      simp at h2
      linarith
    have : qfloor q < n := by
      rcases lt_or_eq_of_le hf with h4 | h4
      · exact h4
      · exfalso; rw [h4] at hlt; exact absurd (lt_of_lt_of_le hlt h) (lt_irrefl _)
    omega
  · exact hf
  · have hhalf : q - qfloor q = 1/2 := le_antisymm (not_lt.mp h2) (not_lt.mp h1)
    have hlt : (qfloor q : ℚ) < q := by rw [← sub_pos, hhalf]; norm_num
    have : qfloor q < n := by
      rcases lt_or_eq_of_le hf with h4 | h4
      · exact h4
      · exfalso; rw [h4] at hlt; exact absurd (lt_of_lt_of_le hlt h) (lt_irrefl _)
    omega

theorem abs_roundHalfEven_sub_le (q : ℚ) : |(roundHalfEven q : ℚ) - q| ≤ 1/2 := by
  have hfl : (qfloor q : ℚ) ≤ q := by rw [qfloor_eq]; exact Int.floor_le q
  have hfu : q < (qfloor q : ℚ) + 1 := by rw [qfloor_eq]; exact Int.lt_floor_add_one q
  unfold roundHalfEven
  dsimp only
  split_ifs with h1 h2 h3
  · rw [abs_le]; constructor <;> linarith
  · rw [abs_le]; push_cast; constructor <;> linarith
  · have hhalf : q - qfloor q = 1/2 := le_antisymm (not_lt.mp h2) (not_lt.mp h1)
    rw [abs_le]; constructor <;> linarith
  · have hhalf : q - qfloor q = 1/2 := le_antisymm (not_lt.mp h2) (not_lt.mp h1)
    rw [abs_le]; push_cast; constructor <;> linarith

theorem round1_nonneg {q : ℚ} (h : 0 ≤ q) : 0 ≤ round1 q := by
  unfold round1
  have : (0 : ℤ) ≤ roundHalfEven (10 * q) := le_roundHalfEven (by push_cast; linarith)
  have h10 : (0 : ℚ) ≤ (roundHalfEven (10 * q) : ℚ) := by exact_mod_cast this
  positivity

theorem round1_le {q : ℚ} {n : ℤ} (h : q ≤ (n : ℚ)) : round1 q ≤ (n : ℚ) := by
  unfold round1
  have h1 : roundHalfEven (10 * q) ≤ 10 * n := roundHalfEven_le (by push_cast; linarith)
  have h2 : (roundHalfEven (10 * q) : ℚ) ≤ ((10 * n : ℤ) : ℚ) := by exact_mod_cast h1
  push_cast at h2 ⊢
  linarith

theorem le_round1 {q : ℚ} {n : ℤ} (h : (n : ℚ) ≤ q) : (n : ℚ) ≤ round1 q := by
  unfold round1
  have h1 : (10 * n : ℤ) ≤ roundHalfEven (10 * q) := le_roundHalfEven (by push_cast; linarith)
  have h2 : ((10 * n : ℤ) : ℚ) ≤ (roundHalfEven (10 * q) : ℚ) := by exact_mod_cast h1
  push_cast at h2 ⊢
  linarith

theorem abs_round1_sub_le (q : ℚ) : |round1 q - q| ≤ 1/20 := by
  have h := abs_roundHalfEven_sub_le (10 * q)
  have heq : round1 q - q = ((roundHalfEven (10 * q) : ℚ) - 10 * q) / 10 := by
    unfold round1; ring
  rw [heq, abs_div, abs_of_pos (show (0:ℚ) < 10 by norm_num)]
  linarith

theorem round1_int_eq (n : ℤ) : round1 ((n : ℚ)) = n := by
  have h1 : round1 ((n : ℚ)) ≤ n := round1_le le_rfl
  have h2 : (n : ℚ) ≤ round1 ((n : ℚ)) := le_round1 le_rfl
  linarith

/-! ### List helpers -/

/-- Truncating three-way zip, the semantics of Python's `zip(a, b, c)`. -/
def zip3L {α β γ : Type} : List α → List β → List γ → List (α × β × γ)
  | a :: as, b :: bs, c :: cs => (a, b, c) :: zip3L as bs cs
  | _, _, _ => []

theorem zip3L_nil_left {α β γ : Type} (bs : List β) (cs : List γ) :
    zip3L ([] : List α) bs cs = [] := by
  cases bs <;> cases cs <;> rfl

theorem zip3L_nil_mid {α β γ : Type} (a : α) (as : List α) (cs : List γ) :
    zip3L (a :: as) ([] : List β) cs = [] := by
  cases cs <;> rfl

theorem zip3L_nil_right {α β γ : Type} (a : α) (as : List α) (b : β) (bs : List β) :
    zip3L (a :: as) (b :: bs) ([] : List γ) = [] := rfl

theorem zip3L_cons {α β γ : Type} (a : α) (as : List α) (b : β) (bs : List β)
    (c : γ) (cs : List γ) :
    zip3L (a :: as) (b :: bs) (c :: cs) = (a, b, c) :: zip3L as bs cs := rfl

theorem zip3L_getElem? {α β γ : Type} :
    ∀ (as : List α) (bs : List β) (cs : List γ) (k : ℕ) (a : α) (b : β) (c : γ),
      as[k]? = some a → bs[k]? = some b → cs[k]? = some c →
      (zip3L as bs cs)[k]? = some (a, b, c)
  | [], _, _, k, a, _, _ => by intro h _ _; simp at h
  | _ :: _, [], _, k, _, b, _ => by intro _ h _; simp at h
  | _ :: _, _ :: _, [], k, _, _, c => by intro _ _ h; simp at h
  | a0 :: as, b0 :: bs, c0 :: cs, 0, a, b, c => by
      intro h1 h2 h3
      simp only [List.getElem?_cons_zero, Option.some.injEq] at h1 h2 h3
      subst h1; subst h2; subst h3
      rw [zip3L_cons, List.getElem?_cons_zero]
  | a0 :: as, b0 :: bs, c0 :: cs, k + 1, a, b, c => by
      intro h1 h2 h3
      simp only [List.getElem?_cons_succ] at h1 h2 h3
      rw [zip3L_cons, List.getElem?_cons_succ]
      exact zip3L_getElem? as bs cs k a b c h1 h2 h3

theorem zip3L_length {α β γ : Type} :
    ∀ (as : List α) (bs : List β) (cs : List γ),
      (zip3L as bs cs).length = min (min as.length bs.length) cs.length
  | [], bs, cs => by rw [zip3L_nil_left]; simp
  | a :: as, [], cs => by rw [zip3L_nil_mid]; simp
  | a :: as, b :: bs, [] => by rw [zip3L_nil_right]; simp
  | a :: as, b :: bs, c :: cs => by
      show (zip3L as bs cs).length + 1 = _
      rw [zip3L_length as bs cs]
      simp only [List.length_cons]
      omega

theorem zip3L_map_fst {α β γ : Type} :
    ∀ (as : List α) (bs : List β) (cs : List γ),
      as.length ≤ bs.length → as.length ≤ cs.length →
      (zip3L as bs cs).map Prod.fst = as
  | [], bs, cs, _, _ => by rw [zip3L_nil_left]; rfl
  | a :: as, [], cs, h, _ => by simp at h
  | a :: as, b :: bs, [], _, h => by simp at h
  | a :: as, b :: bs, c :: cs, h1, h2 => by
      show a :: (zip3L as bs cs).map Prod.fst = a :: as
      rw [zip3L_map_fst as bs cs (by simpa using h1) (by simpa using h2)]

/-- First-occurrence deduplication, the key order of a Python `dict` built by
iterating a list (insertion order). -/
def firstDedupGo (seen : List String) : List String → List String
  | [] => []
  | a :: l => if a ∈ seen then firstDedupGo seen l else a :: firstDedupGo (a :: seen) l

def firstDedup (l : List String) : List String := firstDedupGo [] l

theorem mem_firstDedupGo (x : String) : ∀ (l seen : List String),
    x ∈ firstDedupGo seen l ↔ x ∈ l ∧ x ∉ seen := by
  intro l
  induction l with
  | nil => intro seen; simp [firstDedupGo]
  | cons a t ih =>
    intro seen
    by_cases h : a ∈ seen
    · simp only [firstDedupGo, if_pos h, ih, List.mem_cons]
      constructor
      · rintro ⟨hx, hns⟩; exact ⟨Or.inr hx, hns⟩
      · rintro ⟨hx | hx, hns⟩
        · subst hx; exact absurd h hns
        · exact ⟨hx, hns⟩
    · simp only [firstDedupGo, if_neg h, List.mem_cons, ih]
      by_cases hxa : x = a
      · subst hxa; simp [h]
      · simp only [hxa, false_or]

theorem mem_firstDedup (x : String) (l : List String) :
    x ∈ firstDedup l ↔ x ∈ l := by
  unfold firstDedup
  rw [mem_firstDedupGo]
  simp

theorem nodup_firstDedupGo : ∀ (l seen : List String), (firstDedupGo seen l).Nodup := by
  intro l
  induction l with
  | nil => intro seen; simp [firstDedupGo]
  | cons a t ih =>
    intro seen
    by_cases h : a ∈ seen
    · simpa [firstDedupGo, if_pos h] using ih seen
    · simp only [firstDedupGo, if_neg h, List.nodup_cons]
      refine ⟨fun hc => ?_, ih (a :: seen)⟩
      have := (mem_firstDedupGo a t (a :: seen)).mp hc
      exact this.2 (List.mem_cons_self a seen)

theorem nodup_firstDedup (l : List String) : (firstDedup l).Nodup :=
  nodup_firstDedupGo l []

/-- Maximum of a nonempty rational list (`np.max` / Python `max`); 0 on `[]`. -/
def maxQ : List ℚ → ℚ
  | [] => 0
  | a :: t => t.foldl max a

/-- Minimum of a nonempty rational list (`np.min` / Python `min`); 0 on `[]`. -/
def minQ : List ℚ → ℚ
  | [] => 0
  | a :: t => t.foldl min a

/-- Maximum of a list of naturals (Python `max` over counts); 0 on `[]`. -/
def maxN (l : List ℕ) : ℕ := l.foldl max 0

/-- Mean of a list, `np.mean` (the empty-list case, where numpy yields NaN,
is guarded by every caller below). -/
def npMeanQ (xs : List ℚ) : ℚ := xs.sum / xs.length

/-- Population variance of a list: the square of `np.std`. -/
def npVarQ (xs : List ℚ) : ℚ := ((xs.map (fun x => (x - npMeanQ xs) ^ 2)).sum) / xs.length

/-- Substring check on character lists (the semantics of Python's `in` on
strings). -/
def isPrefixChars : List Char → List Char → Bool
  | [], _ => true
  | _ :: _, [] => false
  | a :: as, b :: bs => a = b && isPrefixChars as bs

def containsChars : List Char → List Char → Bool
  | [], pat => pat.isEmpty
  | a :: t, pat => isPrefixChars pat (a :: t) || containsChars t pat

def lowerChars (s : String) : List Char := s.data.map Char.toLower

def strHealthyPat : String := "healthy"

/-- Python's `'healthy' in s.lower()`. -/
def containsHealthy (s : String) : Bool := containsChars (lowerChars s) strHealthyPat.data

/-! ### chroma.py — string constants of the source -/

def strAnalysisType : String := "leaf_disease_analysis"
def strQuery : String := "query"
def strLeafHealthy : String := "leaf_healthy"
def strLeafWithDisease : String := "leaf_with_disease"
def strUnknown : String := "unknown"
def strUnknownPath : String := "Caminho desconhecido"
def strEmptyS : String := ""

/-! ### chroma.py — metadata, query results and `extract_features` -/

/-- The metadata dictionaries stored alongside embeddings; absent keys are
`none` (`dict.get` defaults are applied at each use site, as in the source). -/
structure MetaD where
  path : Option String
  mtype : Option String
  category : Option String
deriving DecidableEq, Repr

instance : Inhabited MetaD := ⟨⟨none, none, none⟩⟩

/-- The (single-query) content of a ChromaDB query result: the inner lists
`results['ids'][0]`, `results['distances'][0]`, `results['embeddings'][0]`,
`results['metadatas'][0]`. -/
structure QueryResults where
  ids : List String
  distances : List ℚ
  embeddings : List (List ℚ)
  metadatas : List MetaD
deriving DecidableEq, Repr

structure ChannelStats where
  mean : ℚ
  std : ℚ
  q25 : ℚ
  q75 : ℚ
deriving DecidableEq, Repr

instance : Inhabited ChannelStats := ⟨⟨0, 0, 0, 0⟩⟩

structure HsvFeatures where
  h_stats : ChannelStats
  s_stats : ChannelStats
  v_stats : ChannelStats
deriving DecidableEq, Repr

structure GlcmFeatures where
  contrast : ℚ
  correlation : ℚ
  energy : ℚ
  homogeneity : ℚ
  dissimilarity : ℚ
  entropy : ℚ
  cluster_shade : ℚ
  cluster_prominence : ℚ
deriving DecidableEq, Repr

structure LbpFeatures where
  mean : ℚ
  std : ℚ
  energy : ℚ
  entropy : ℚ
deriving DecidableEq, Repr

structure ShapeFeatures where
  num_lesions : ℚ
  avg_lesion_size : ℚ
  lesion_size_std : ℚ
  disease_coverage : ℚ
  lesion_density : ℚ
  avg_compactness : ℚ
  avg_distance : ℚ
  std_distance : ℚ
deriving DecidableEq, Repr

structure ImageFeatures where
  hsv : HsvFeatures
  glcm : GlcmFeatures
  lbp : LbpFeatures
  shape : ShapeFeatures
deriving DecidableEq, Repr

instance : Inhabited ShapeFeatures := ⟨⟨0, 0, 0, 0, 0, 0, 0, 0⟩⟩
instance : Inhabited GlcmFeatures := ⟨⟨0, 0, 0, 0, 0, 0, 0, 0⟩⟩
instance : Inhabited LbpFeatures := ⟨⟨0, 0, 0, 0⟩⟩
instance : Inhabited HsvFeatures := ⟨⟨default, default, default⟩⟩
instance : Inhabited ImageFeatures := ⟨⟨default, default, default, default⟩⟩

/-- chroma.py lines 531-604: `extract_features` — pure positional projections
of the 128-value embedding into the nested feature dictionary. -/
def extract_features (e : List ℚ) : ImageFeatures :=
  { hsv :=
      { h_stats := ⟨e.getD 96 0, e.getD 97 0, e.getD 98 0, e.getD 99 0⟩,
        s_stats := ⟨e.getD 100 0, e.getD 101 0, e.getD 102 0, e.getD 103 0⟩,
        v_stats := ⟨e.getD 104 0, e.getD 105 0, e.getD 106 0, e.getD 107 0⟩ },
    glcm := ⟨e.getD 108 0, e.getD 109 0, e.getD 110 0, e.getD 111 0,
             e.getD 112 0, e.getD 113 0, e.getD 114 0, e.getD 115 0⟩,
    lbp := ⟨e.getD 116 0, e.getD 117 0, e.getD 118 0, e.getD 119 0⟩,
    shape := ⟨e.getD 120 0, e.getD 121 0, e.getD 122 0, e.getD 123 0,
              e.getD 124 0, e.getD 125 0, e.getD 126 0, e.getD 127 0⟩ }

/-! ### chroma.py lines 208-308 — `calculate_similarity` -/

/-- `shape1[0]` — the lesion count entry of an embedding. -/
def num_lesoes (e : List ℚ) : ℚ := e.getD 120 0

/-- `shape1[3]` — the affected-area (coverage) entry of an embedding. -/
def area_afetada (e : List ℚ) : ℚ := e.getD 123 0

/-- Lines 220-221: healthy = at most 1 lesion and coverage below 2%. -/
def is_healthy (e : List ℚ) : Bool :=
  decide (num_lesoes e ≤ 1) && decide (area_afetada e < 1/50)

/-- Lines 223-224: significantly diseased = 3+ lesions or coverage above 5%. -/
def has_significant_lesions (e : List ℚ) : Bool :=
  decide (3 ≤ num_lesoes e) || decide (1/20 < area_afetada e)

/-- Line 227: the terminal healthy-versus-diseased test. -/
def healthyVsDiseased (e1 e2 : List ℚ) : Bool :=
  (is_healthy e1 && has_significant_lesions e2) ||
  (is_healthy e2 && has_significant_lesions e1)

def lesion_diff (e1 e2 : List ℚ) : ℚ := |num_lesoes e1 - num_lesoes e2|

def area_diff (e1 e2 : List ℚ) : ℚ := |area_afetada e1 - area_afetada e2|

/-- Line 231: `base_similarity = 100 * (1 - dist)`. -/
def base_similarity (dist : ℚ) : ℚ := 100 * (1 - dist)

/-- Lines 234-241: graduated lesion-count similarity. -/
def lesion_similarity (e1 e2 : List ℚ) : ℚ :=
  let maxLesoes := max (num_lesoes e1) (num_lesoes e2)
  if 0 < maxLesoes then 100 * (1 - lesion_diff e1 e2 / (maxLesoes + 2))
  else if lesion_diff e1 e2 = 0 then 100 else 0

/-- Line 244: affected-area similarity, normalized to a 20% difference. -/
def area_similarity (e1 e2 : List ℚ) : ℚ :=
  100 * (1 - min 1 (area_diff e1 e2 / (1/5)))

/-- Lines 246-264: blend base/lesion/area with weights keyed by the joint
health state. -/
def blended_similarity (dist : ℚ) (e1 e2 : List ℚ) : ℚ :=
  if is_healthy e1 && is_healthy e2 then
    2/5 * base_similarity dist + 3/10 * lesion_similarity e1 e2 + 3/10 * area_similarity e1 e2
  else if has_significant_lesions e1 && has_significant_lesions e2 then
    1/5 * base_similarity dist + 1/2 * lesion_similarity e1 e2 + 3/10 * area_similarity e1 e2
  else
    3/10 * base_similarity dist + 2/5 * lesion_similarity e1 e2 + 3/10 * area_similarity e1 e2

/-- Line 267: clamp to [0, 100]. -/
def clamped_similarity (dist : ℚ) (e1 e2 : List ℚ) : ℚ :=
  max 0 (min 100 (blended_similarity dist e1 e2))

/-- Lines 273-280: the lesion-difference penalty bucket. -/
def lesion_penalty (d : ℚ) : ℚ :=
  if d ≤ 2 then 9/10 else if d ≤ 4 then 4/5 else if d ≤ 6 then 7/10 else 3/5

/-- Lines 287-294: the area-difference penalty bucket. -/
def area_penalty (d : ℚ) : ℚ :=
  if d ≤ 1/20 then 19/20 else if d ≤ 1/10 then 17/20 else if d ≤ 3/20 then 3/4 else 13/20

/-- Lines 271-281: the lesion penalty is applied only when `lesion_diff > 0`. -/
def after_lesion_penalty (dist : ℚ) (e1 e2 : List ℚ) : ℚ :=
  if 0 < lesion_diff e1 e2 then
    clamped_similarity dist e1 e2 * lesion_penalty (lesion_diff e1 e2)
  else clamped_similarity dist e1 e2

/-- Lines 284-295: the area penalty is applied only when `area_diff > 0`. -/
def after_area_penalty (dist : ℚ) (e1 e2 : List ℚ) : ℚ :=
  if 0 < area_diff e1 e2 then
    after_lesion_penalty dist e1 e2 * area_penalty (area_diff e1 e2)
  else after_lesion_penalty dist e1 e2

/-- Lines 298-299: +20% bonus (capped at 100) when both deltas are small. -/
def after_bonus (dist : ℚ) (e1 e2 : List ℚ) : ℚ :=
  if lesion_diff e1 e2 ≤ 2 ∧ area_diff e1 e2 ≤ 1/20 then
    min 100 (after_area_penalty dist e1 e2 * (6/5))
  else after_area_penalty dist e1 e2

/-- Lines 302-303: floor at 30 when both sides are significantly diseased. -/
def after_disease_floor (dist : ℚ) (e1 e2 : List ℚ) : ℚ :=
  if has_significant_lesions e1 && has_significant_lesions e2 then
    max 30 (after_bonus dist e1 e2)
  else after_bonus dist e1 e2

/-- chroma.py lines 208-308: `calculate_similarity(dist, emb1, emb2)`.
The terminal branch (line 228) returns 5.0 before any other step; otherwise
the staged pipeline above is capped at 95 (line 306) and rounded to one
decimal (line 308). -/
def calculate_similarity (dist : ℚ) (emb1 emb2 : List ℚ) : ℚ :=
  if healthyVsDiseased emb1 emb2 then 5
  else round1 (min 95 (after_disease_floor dist emb1 emb2))

/-! ### chroma.py lines 145-206 — `query_embedding`: metadata insertion -/

/-- Lines 191-200: `results['metadatas'][0].insert(0, metadata)` — performed
unconditionally (with a caller-supplied dict or the built-in default), and
only on the metadata list: ids, distances and embeddings are untouched. -/
def insertQueryMetadata (m : MetaD) (r : QueryResults) : QueryResults :=
  { r with metadatas := m :: r.metadatas }

/-! ### chroma.py lines 310-529 — `analyze_query_results` -/

/-- Line 345: `zip(distances[1:], embeddings[1:], metadatas[1:])`. -/
def candidateTriples (r : QueryResults) : List (ℚ × List ℚ × MetaD) :=
  zip3L (r.distances.drop 1) (r.embeddings.drop 1) (r.metadatas.drop 1)

/-- Line 327: `query_emb = embeddings[0]`. -/
def queryEmbOf (r : QueryResults) : List ℚ := r.embeddings.headD []

/-- Lines 347-348: candidates of type `leaf_disease_analysis` are skipped. -/
def keptCandidates (r : QueryResults) : List (ℚ × List ℚ × MetaD) :=
  (candidateTriples r).filter (fun c => c.2.2.mtype != some strAnalysisType)

/-- Lines 365-370: category normalization to `leaf_healthy` /
`leaf_with_disease` (a stored category equal to `"query"` is kept). -/
def normalizeCategory (m : MetaD) : String :=
  let c := m.category.getD strUnknown
  if containsHealthy c then strLeafHealthy
  else if c ≠ strQuery then strLeafWithDisease
  else c

/-- Lines 350-351: the per-candidate similarity list (in loop order over the
kept candidates), each scored against `query_emb = embeddings[0]`. -/
def simsOf (r : QueryResults) : List ℚ :=
  (keptCandidates r).map (fun c => calculate_similarity c.1 (queryEmbOf r) c.2.1)

/-- Lines 362-384: the category / path / features record kept per candidate
(the print-only `differences` entries are omitted). -/
def compsOf (r : QueryResults) : List (String × String × ImageFeatures) :=
  (keptCandidates r).map
    (fun c => (normalizeCategory c.2.2, c.2.2.path.getD strUnknownPath, extract_features c.2.1))

/-- Lines 386-388: indices (into the similarity list) with similarity ≥ 40. -/
def validIndicesOf (r : QueryResults) : List ℕ :=
  (List.range (simsOf r).length).filter (fun i => decide (40 ≤ (simsOf r).getD i 0))

/-- Line 394: the surviving similarities. -/
def filteredSimsOf (r : QueryResults) : List ℚ :=
  (validIndicesOf r).map (fun i => (simsOf r).getD i 0)

structure SimilarImage where
  id : String
  category : String
  path : String
  similarity : ℚ
  metadata : MetaD
  features : ImageFeatures
deriving DecidableEq, Repr

instance : Inhabited SimilarImage :=
  ⟨⟨strEmptyS, strEmptyS, strEmptyS, 0, default, default⟩⟩

/-- Lines 393-412: the `similar_images` records.  The zip of the five
comprehensions over `valid_indices` is a single map over `valid_indices`:
`category` comes from the kept-candidate list (index `i`) while `id`,
`metadata`, `path` and `features` are read at raw index `i + 1` of the
original hit lists, exactly as the source does. -/
def similarImagesOf (r : QueryResults) : List SimilarImage :=
  (validIndicesOf r).map (fun i =>
    { id := r.ids.getD (i + 1) strEmptyS,
      category := ((compsOf r).getD i (strUnknown, strUnknownPath, default)).1,
      path := ((r.metadatas.getD (i + 1) default).path).getD strUnknownPath,
      similarity := (simsOf r).getD i 0,
      metadata := r.metadatas.getD (i + 1) default,
      features := extract_features (r.embeddings.getD (i + 1) []) })

/-- Stable insertion of one record into a descending-by-similarity list. -/
def insertBySimDesc (x : SimilarImage) : List SimilarImage → List SimilarImage
  | [] => [x]
  | y :: t => if y.similarity ≤ x.similarity then x :: y :: t else y :: insertBySimDesc x t

/-- Line 415: `similar_images.sort(key=similarity, reverse=True)` — Python's
sort is stable, and a stable descending sort is uniquely determined, so this
stable insertion sort computes the same list. -/
def sortBySimDesc : List SimilarImage → List SimilarImage
  | [] => []
  | x :: t => insertBySimDesc x (sortBySimDesc t)

/-- Line 418: the five most similar images. -/
def top5Of (r : QueryResults) : List SimilarImage :=
  (sortBySimDesc (similarImagesOf r)).take 5

/-- Line 422: total similarity over the top five. -/
def totalSimOf (imgs : List SimilarImage) : ℚ :=
  (imgs.map SimilarImage.similarity).sum

/-- Lines 424-433 (`category_stats[cat]['total_sim']`). -/
def categorySimSum (imgs : List SimilarImage) (c : String) : ℚ :=
  ((imgs.filter (fun i => i.category == c)).map SimilarImage.similarity).sum

/-- Lines 424-433 (`category_stats[cat]['count']`). -/
def categoryCount (imgs : List SimilarImage) (c : String) : ℕ :=
  (imgs.filter (fun i => i.category == c)).length

/-- Lines 424-433 (`category_stats[cat]['max_sim']`, accumulated from 0). -/
def categoryMaxSim (imgs : List SimilarImage) (c : String) : ℚ :=
  ((imgs.filter (fun i => i.category == c)).map SimilarImage.similarity).foldl max 0

/-- The key set of `category_stats`, in Python dict insertion order. -/
def categoriesOf (imgs : List SimilarImage) : List String :=
  firstDedup (imgs.map SimilarImage.category)

/-- Lines 436-437 and 520-523: `percentage = round(total_sim_cat / total_sim
* 100, 1)`, assembled per category in insertion order. -/
def categoryDistributionOf (imgs : List SimilarImage) : List (String × ℚ) :=
  (categoriesOf imgs).map
    (fun c => (c, round1 (categorySimSum imgs c / totalSimOf imgs * 100)))

/-- Python `max(cats, key=max_sim)`: first maximal element in list order. -/
def maxByMaxSim (imgs : List SimilarImage) : List String → String
  | [] => strEmptyS
  | c :: t => t.foldl (fun b c2 => if categoryMaxSim imgs b < categoryMaxSim imgs c2 then c2 else b) c

/-- Lines 440-469: winning category.  The main branch (nonempty top-5) takes
the best match's category unless some category holds ≥ 3 of the 5 slots (first
such key in dict order wins); the `else` branch is the source's dead fallback,
kept for fidelity. -/
def bestCategoryOf (hl : Bool) (imgs : List SimilarImage) : String :=
  if imgs.isEmpty then
    let cats := categoriesOf imgs
    if hl then
      let diseaseCats := cats.filter (fun c => !(containsHealthy c) && c != strUnknown)
      if diseaseCats.isEmpty then maxByMaxSim imgs cats else maxByMaxSim imgs diseaseCats
    else if cats.contains strLeafHealthy then strLeafHealthy
    else maxByMaxSim imgs cats
  else
    let base := (imgs.headD default).category
    let bigs := (categoriesOf imgs).filter (fun c => decide (3 ≤ categoryCount imgs c))
    bigs.headD base

/-- Lines 471-502: the confidence computation over the top five. -/
def confidenceOf (hl : Bool) (imgs : List SimilarImage) : ℚ :=
  let best := bestCategoryOf hl imgs
  let cats := categoriesOf imgs
  let simFactor := categoryMaxSim imgs best / 100
  let consFactor := (categoryCount imgs best : ℚ) / imgs.length
  let catDiff :=
    if 1 < cats.length then
      let second := maxByMaxSim imgs (cats.filter (fun c => c != best))
      (categoryMaxSim imgs best - categoryMaxSim imgs second) / 100
    else 1
  let conf0 := (simFactor * (2/5) + consFactor * (3/10) + catDiff * (3/10)) * 100
  let conf1 :=
    if hl && !(containsHealthy best) then min 100 (conf0 * (6/5))
    else if !hl && containsHealthy best then min 100 (conf0 * (6/5))
    else conf0
  round1 (max 0 (min 100 conf1))

structure AnalysisResult where
  identified_category : String
  confidence : ℚ
  best_match : ℚ
  category_distribution : List (String × ℚ)
  similar_images : List SimilarImage
deriving DecidableEq, Repr

instance : Inhabited AnalysisResult := ⟨⟨strEmptyS, 0, 0, [], []⟩⟩

/-- chroma.py lines 310-529: `analyze_query_results` on a query-result tuple.
`none` models every non-success exit: the missing/empty `distances` guard
(line 317), the IndexError on `embeddings[0]` when the hit list is empty
(caught by the enclosing try/except), and the explicit `return None` when no
candidate reaches similarity 40 (lines 390-391). -/
def analyze_query_results (r : QueryResults) (has_lesions : Bool) : Option AnalysisResult :=
  if r.distances.isEmpty then none
  else if r.embeddings.isEmpty then none
  else if (validIndicesOf r).isEmpty then none
  else
    let top5 := top5Of r
    some
      { identified_category := bestCategoryOf has_lesions top5,
        confidence := confidenceOf has_lesions top5,
        best_match := round1 (maxQ (filteredSimsOf r)),
        category_distribution := categoryDistributionOf top5,
        similar_images := top5 }

/-! ### processing_engine.py lines 28-412 — `extract_disease_features`

The color-space conversions (cv2.cvtColor) are library calls: the H, S, V and
gray channels enter the embedding as data.  The disease mask is the value
returned by `detect_disease_regions` (whose cv2 morphology pipeline is not
re-derived); the contour list is the output of `cv2.findContours` on that
mask, reduced to the quantities the source reads from each contour. -/

/-- A contour, reduced to `cv2.contourArea`, `cv2.arcLength` and the centroid
(`np.mean` of its points). -/
structure Contour where
  area : ℚ
  perimeter : ℚ
  cx : ℚ
  cy : ℚ
deriving DecidableEq, Repr

/-- numpy boolean-mask selection `channel[valid_mask]`, row-major. -/
def maskedVals (H W : ℕ) (ch : ℕ → ℕ → ℕ) (mask : ℕ → ℕ → Bool) : List ℕ :=
  (List.range H).bind
    (fun i => ((List.range W).filter (fun j => mask i j)).map (fun j => ch i j))

/-- The row-major list of set pixels of a mask. -/
def maskPixels (H W : ℕ) (mask : ℕ → ℕ → Bool) : List (ℕ × ℕ) :=
  (List.range H).bind
    (fun i => ((List.range W).filter (fun j => mask i j)).map (fun j => (i, j)))

/-- `np.sum(mask) / 255.0`: the pixel count of a 0/255 mask. -/
def maskedCount (H W : ℕ) (mask : ℕ → ℕ → Bool) : ℕ := (maskPixels H W mask).length

/-- `cv2.calcHist` with `bins` uniform bins over `[0, top)`: the bin of value
`v` is `v * bins / top` (integer division). -/
def histCounts (bins top : ℕ) (vals : List ℕ) : List ℚ :=
  (List.range bins).map (fun b => ((vals.filter (fun v => v * bins / top == b)).length : ℚ))

/-- Ascending insertion into a sorted rational list. -/
def insertAscQ (x : ℚ) : List ℚ → List ℚ
  | [] => [x]
  | y :: t => if x ≤ y then x :: y :: t else y :: insertAscQ x t

def sortAscQ : List ℚ → List ℚ
  | [] => []
  | x :: t => insertAscQ x (sortAscQ t)

/-- `np.percentile(xs, p)` with numpy's default linear interpolation (callers
guard nonemptiness; on the empty list numpy raises instead). -/
def npPercentileQ (xs : List ℚ) (p : ℚ) : ℚ :=
  let s := sortAscQ xs
  let hq : ℚ := p * ((xs.length : ℚ) - 1) / 100
  let lo := (qfloor hq).toNat
  let hi := (-(qfloor (-hq))).toNat
  let vlo := s.getD lo 0
  let vhi := s.getD hi 0
  vlo + (hq - (qfloor hq : ℚ)) * (vhi - vlo)

/-- Lines 64-85: the `[mean, std, q25, q75]` statistics of one channel over
the leaf mask; `np.std` is `sq` (np.sqrt) applied to the variance. -/
def channel_stats (sq : ℚ → ℚ) (vals : List ℕ) : List ℚ :=
  let q : List ℚ := vals.map (fun v => (v : ℚ))
  [npMeanQ q, sq (npVarQ q), npPercentileQ q 25, npPercentileQ q 75]

/-- Lines 41-54 and 87-89: the three 32-bin HSV histograms (H over [0,180),
S and V over [0,256)), each normalized by the masked pixel count when that
count is positive, otherwise left raw. -/
def colorHistBlock (H W : ℕ) (hC sC vC : ℕ → ℕ → ℕ) (mask : ℕ → ℕ → Bool) : List ℚ :=
  let total : ℚ := (maskedCount H W mask : ℚ)
  let raw := histCounts 32 180 (maskedVals H W hC mask)
          ++ histCounts 32 256 (maskedVals H W sC mask)
          ++ histCounts 32 256 (maskedVals H W vC mask)
  if 0 < total then raw.map (fun x => x / total) else raw

/-- Lines 90-92: the twelve HSV channel statistics. -/
def hsvStatsBlock (sq : ℚ → ℚ) (H W : ℕ) (hC sC vC : ℕ → ℕ → ℕ)
    (mask : ℕ → ℕ → Bool) : List ℚ :=
  channel_stats sq (maskedVals H W hC mask)
  ++ channel_stats sq (maskedVals H W sC mask)
  ++ channel_stats sq (maskedVals H W vC mask)

/-- Lines 240-248: the (dx, dy) offsets generated by distances {1, 2} and
angles {0, π/4, π/2, 3π/4} after `int(round(...))`; (1, 1) and (-1, 1) each
occur twice, so their pairs are accumulated twice, as in the source. -/
def glcmOffsets : List (ℤ × ℤ) :=
  [(1, 0), (1, 1), (0, 1), (-1, 1), (2, 0), (1, 1), (0, 2), (-1, 1)]

/-- Lines 246-254: one entry per (offset, i, j) loop iteration whose endpoints
both lie in the disease mask; the loop ranges
`range(max(0,-dx), min(H, H-dx))` are exactly `0 ≤ i < H ∧ 0 ≤ i+dx < H`.
`glcm.sum()` equals the length of this list. -/
def glcmPairs (H W : ℕ) (gray : ℕ → ℕ → ℕ) (disease : ℕ → ℕ → Bool) : List (ℕ × ℕ) :=
  glcmOffsets.bind (fun o =>
    (List.range H).bind (fun (i : ℕ) =>
      ((List.range W).filter (fun (j : ℕ) =>
          let i2 : ℤ := Int.ofNat i + o.1
          let j2 : ℤ := Int.ofNat j + o.2
          decide (0 ≤ i2) && decide (i2 < (H : ℤ)) &&
          decide (0 ≤ j2) && decide (j2 < (W : ℤ)) &&
          disease i j && disease (Int.toNat i2) (Int.toNat j2))).map
        (fun (j : ℕ) =>
          (gray i j, gray (Int.toNat (Int.ofNat i + o.1)) (Int.toNat (Int.ofNat j + o.2))))))

/-- The normalized GLCM entry for the gray-level pair (a, b). -/
def glcmP (H W : ℕ) (gray : ℕ → ℕ → ℕ) (disease : ℕ → ℕ → Bool) (a b : ℕ) : ℚ :=
  (((glcmPairs H W gray disease).filter (fun p => p == (a, b))).length : ℚ)
    / ((glcmPairs H W gray disease).length : ℚ)

/-- Sum of an expression over the 256 × 256 gray-level grid. -/
def glcmSum (f : ℕ → ℕ → ℚ) : ℚ :=
  ∑ a ∈ Finset.range 256, ∑ b ∈ Finset.range 256, f a b

/-- Lines 240-302: `calculate_glcm_features`.  When no pixel pair was counted
(`glcm.sum() == 0`, in particular for an empty disease mask) the result is
`[0] * 8`; otherwise the eight second-order statistics of the normalized
matrix, with np.sqrt and np.log2 as the parameters `sq`, `lg` and
`epsilon = 1e-10` as in the source. -/
def calculate_glcm_features (sq lg : ℚ → ℚ) (H W : ℕ) (gray : ℕ → ℕ → ℕ)
    (disease : ℕ → ℕ → Bool) : List ℚ :=
  if (glcmPairs H W gray disease).isEmpty then [0, 0, 0, 0, 0, 0, 0, 0]
  else
    let P := glcmP H W gray disease
    let eps : ℚ := 1 / 10000000000
    let meanI := glcmSum (fun a b => (a : ℚ) * P a b)
    let meanJ := glcmSum (fun a b => (b : ℚ) * P a b)
    let stdI := sq (glcmSum (fun a b => ((a : ℚ) - meanI) ^ 2 * P a b))
    let stdJ := sq (glcmSum (fun a b => ((b : ℚ) - meanJ) ^ 2 * P a b))
    let stdProd := if stdI * stdJ < eps then eps else stdI * stdJ
    let contrast := glcmSum (fun a b => ((a : ℚ) - (b : ℚ)) ^ 2 * P a b)
    let correlation := glcmSum (fun a b => ((a : ℚ) - meanI) * ((b : ℚ) - meanJ) * P a b / stdProd)
    let energy := glcmSum (fun a b => P a b ^ 2)
    let homogeneity := glcmSum (fun a b => P a b / (1 + ((a : ℚ) - (b : ℚ)) ^ 2))
    let dissimilarity := glcmSum (fun a b => |(a : ℚ) - (b : ℚ)| * P a b)
    let entropy := -glcmSum (fun a b => P a b * lg (P a b + eps))
    let clusterShade := glcmSum (fun a b => ((a : ℚ) + (b : ℚ) - meanI - meanJ) ^ 3 * P a b)
    let clusterProminence := glcmSum (fun a b => ((a : ℚ) + (b : ℚ) - meanI - meanJ) ^ 4 * P a b)
    [contrast, correlation, energy, homogeneity, dissimilarity, entropy,
     clusterShade, clusterProminence]

def lbpBit (b : Bool) : ℕ := if b then 1 else 0

/-- Lines 316-325: the 8-neighbour comparison code of an interior pixel
(`neighbour >= center` sets the bit). -/
def lbpCode (gray : ℕ → ℕ → ℕ) (i j : ℕ) : ℕ :=
  let c := gray i j
  lbpBit (decide (c ≤ gray (i-1) (j-1))) * 128 +
  lbpBit (decide (c ≤ gray (i-1) j)) * 64 +
  lbpBit (decide (c ≤ gray (i-1) (j+1))) * 32 +
  lbpBit (decide (c ≤ gray i (j+1))) * 16 +
  lbpBit (decide (c ≤ gray (i+1) (j+1))) * 8 +
  lbpBit (decide (c ≤ gray (i+1) j)) * 4 +
  lbpBit (decide (c ≤ gray (i+1) (j-1))) * 2 +
  lbpBit (decide (c ≤ gray i (j-1)))

/-- Lines 306-326: the lbp image — codes only at interior disease pixels,
zero elsewhere. -/
def lbpAt (H W : ℕ) (gray : ℕ → ℕ → ℕ) (disease : ℕ → ℕ → Bool) (i j : ℕ) : ℕ :=
  if 1 ≤ i ∧ i + 1 < H ∧ 1 ≤ j ∧ j + 1 < W ∧ disease i j then lbpCode gray i j else 0

/-- Lines 328-330: the 256-bin histogram of lbp values over disease pixels,
normalized when its mass is positive. -/
def lbpHist (H W : ℕ) (gray : ℕ → ℕ → ℕ) (disease : ℕ → ℕ → Bool) (k : ℕ) : ℚ :=
  let vals := (maskPixels H W disease).map (fun p => lbpAt H W gray disease p.1 p.2)
  let raw : ℚ := ((vals.filter (fun v => v == k)).length : ℚ)
  if 0 < vals.length then raw / (vals.length : ℚ) else raw

/-- Lines 304-338: `calculate_lbp`; an empty disease mask returns
`[0, 0, 0, 0]` before any histogram work. -/
def calculate_lbp (sq lg : ℚ → ℚ) (H W : ℕ) (gray : ℕ → ℕ → ℕ)
    (disease : ℕ → ℕ → Bool) : List ℚ :=
  if (maskPixels H W disease).isEmpty then [0, 0, 0, 0]
  else
    let h := lbpHist H W gray disease
    let eps : ℚ := 1 / 10000000000
    let hmean := (∑ k ∈ Finset.range 256, h k) / 256
    let hvar := (∑ k ∈ Finset.range 256, (h k - hmean) ^ 2) / 256
    [hmean, sq hvar, ∑ k ∈ Finset.range 256, h k ^ 2,
     -(∑ k ∈ Finset.range 256, h k * lg (h k + eps))]

/-- The `np.linalg.norm` distances between all centroid pairs i < j
(lines 379-387). -/
def pairwiseDists (sq : ℚ → ℚ) : List Contour → List ℚ
  | [] => []
  | c :: t => (t.map (fun c2 => sq ((c.cx - c2.cx) ^ 2 + (c.cy - c2.cy) ^ 2)))
      ++ pairwiseDists sq t

/-- Lines 352-403: the eight shape statistics.  Contours with area ≤ 30 are
dropped (line 357-358); with none left all eight values are zero
(line 403). -/
def shape_features (sq : ℚ → ℚ) (piq : ℚ) (leafArea : ℚ)
    (contours : List Contour) : List ℚ :=
  let valid := contours.filter (fun c => decide (30 < c.area))
  if valid.isEmpty then [0, 0, 0, 0, 0, 0, 0, 0]
  else
    let areas := valid.map Contour.area
    let diseaseCoverage := areas.sum / leafArea
    let avgLesionSize := npMeanQ areas
    let lesionSizeStd := if 1 < areas.length then sq (npVarQ areas) else 0
    let numLesions : ℚ := (valid.length : ℚ)
    let lesionDensity := numLesions / leafArea * 1000
    let compactness := valid.map (fun c => 4 * piq * c.area / (c.perimeter * c.perimeter))
    let avgCompactness := npMeanQ compactness
    let dists := pairwiseDists sq valid
    let avgDistance := if 1 < valid.length then npMeanQ dists else 0
    let stdDistance := if 1 < valid.length then sq (npVarQ dists) else 0
    [numLesions, avgLesionSize, lesionSizeStd, diseaseCoverage, lesionDensity,
     avgCompactness, avgDistance, stdDistance]

/-- processing_engine.py lines 28-412: `extract_disease_features` as a pure
function of the channel grids, leaf mask, disease mask and the disease-mask
contours.  `none` models the crash on an empty leaf mask: `np.mean`/`np.std`
over the empty masked selection yield NaN (not the defined zero sub-vectors)
and `np.percentile` raises IndexError (lines 61-85), so no feature vector is
produced. -/
def extract_disease_features (sq lg : ℚ → ℚ) (piq : ℚ) (H W : ℕ)
    (hC sC vC gray : ℕ → ℕ → ℕ) (mask disease : ℕ → ℕ → Bool)
    (contours : List Contour) : Option (List ℚ) :=
  if (maskedVals H W hC mask).isEmpty then none
  else some (colorHistBlock H W hC sC vC mask
    ++ hsvStatsBlock sq H W hC sC vC mask
    ++ calculate_glcm_features sq lg H W gray disease
    ++ calculate_lbp sq lg H W gray disease
    ++ shape_features sq piq (maskedCount H W mask : ℚ) contours)

/-! ### evaluation_system.py lines 30-144 — the revocation risk predictor -/

def strAlto : String := "ALTO"
def strMedio : String := "MÉDIO"
def strBaixo : String := "BAIXO"
def strInsufReason : String := "Dados insuficientes para análise"
def strFactorConf : String := "Confiança muito baixa"
def strFactorStd : String := "Alta variabilidade nas similaridades"
def strFactorCons : String := "Baixa consistência de categoria"
def strFactorGap : String := "Grande diferença entre imagens similares"
def strFactorShape : String := "Alta variabilidade nas características de forma"

/-- The feature record of `extract_confidence_features`.  `np.std` values are
carried as their squares (`var_similarity`, `var_shape`): the predictor only
compares them against the nonnegative bounds 15 and 0.5, and
`np.std(xs) > t ↔ variance > t²` for `t ≥ 0`. -/
structure ConfidenceFeatures where
  confidence : ℚ
  max_similarity : ℚ
  min_similarity : ℚ
  mean_similarity : ℚ
  var_similarity : ℚ
  category_consistency : ℚ
  similarity_gap : ℚ
  var_shape : ℚ
  num_similar_images : ℕ
deriving DecidableEq, Repr

/-- evaluation_system.py lines 30-87: `extract_confidence_features`; `none`
for fewer than 3 similar images (line 40-41). -/
def extract_confidence_features (cr : AnalysisResult) : Option ConfidenceFeatures :=
  if cr.similar_images.length < 3 then none
  else
    let sims := cr.similar_images.map SimilarImage.similarity
    let cats := cr.similar_images.map SimilarImage.category
    let counts := (firstDedup cats).map (fun c => (cats.filter (fun x => x == c)).length)
    let consistency := (maxN counts : ℚ) / (cats.length : ℚ)
    let top3 := sims.take 3
    let gap := maxQ sims - minQ top3
    let shapeFeats := (cr.similar_images.take 3).bind (fun img =>
      [img.features.shape.num_lesions, img.features.shape.disease_coverage,
       img.features.shape.avg_lesion_size])
    let varShape := if shapeFeats.isEmpty then 0 else npVarQ shapeFeats
    some
      { confidence := cr.confidence,
        max_similarity := maxQ sims,
        min_similarity := minQ sims,
        mean_similarity := npMeanQ sims,
        var_similarity := npVarQ sims,
        category_consistency := consistency,
        similarity_gap := gap,
        var_shape := varShape,
        num_similar_images := cr.similar_images.length }

/-- The returned risk dictionary; keys absent from a given return path are
`none` (the early insufficient-data return of lines 94-99 carries neither a
`risk_score` nor a `risk_factors` entry — only a `reason`). -/
structure RiskResult where
  revocation_risk : String
  risk_score : Option ℚ
  confidence : ℚ
  risk_factors : Option (List String)
  reason : Option String
deriving DecidableEq, Repr

instance : Inhabited RiskResult := ⟨⟨strEmptyS, none, 0, none, none⟩⟩

/-- evaluation_system.py lines 89-144: `predict_revocation_risk`.  The two
`np.std` comparisons are embedded as variance comparisons (see
`ConfidenceFeatures`). -/
def predict_revocation_risk (cr : AnalysisResult) : RiskResult :=
  match extract_confidence_features cr with
  | none =>
      { revocation_risk := strAlto, risk_score := none, confidence := 0,
        risk_factors := none, reason := some strInsufReason }
  | some f =>
      let factors :=
        (if f.confidence < 60 then [strFactorConf] else []) ++
        (if 225 < f.var_similarity then [strFactorStd] else []) ++
        (if f.category_consistency < 3/5 then [strFactorCons] else []) ++
        (if 20 < f.similarity_gap then [strFactorGap] else []) ++
        (if 1/4 < f.var_shape then [strFactorShape] else [])
      let score : ℚ :=
        (if f.confidence < 60 then 2/5 else 0) +
        (if 225 < f.var_similarity then 3/10 else 0) +
        (if f.category_consistency < 3/5 then 3/10 else 0) +
        (if 20 < f.similarity_gap then 1/5 else 0) +
        (if 1/4 < f.var_shape then 1/5 else 0)
      let level := if 4/5 ≤ score then strAlto else if 1/2 ≤ score then strMedio else strBaixo
      { revocation_risk := level, risk_score := some score,
        confidence := f.confidence, risk_factors := some factors, reason := none }

/-! ### Concrete inputs used by the witnesses and counterexamples -/

def strLeafDisease : String := "leaf_disease"
def strLeafRust : String := "leaf_rust"
def strPathQ : String := "image/uploads/query_leaf.jpg"
def strPathA : String := "dataset/leaf_healthy/a.jpg"
def strPathB : String := "dataset/leaf_rust/b.jpg"
def strPathC : String := "dataset/leaf_rust/c.jpg"
def strIdQ : String := "query_leaf.jpg"
def strIdA : String := "a.jpg"
def strIdB : String := "b.jpg"
def strIdC : String := "c.jpg"
def strCatA : String := "cat_a"
def strCatB : String := "cat_b"
def strCatC : String := "cat_c"

/-- An all-zero 128-value embedding: a healthy signature (0 lesions,
0 coverage). -/
def v0 : List ℚ := List.replicate 128 0

/-- A significantly diseased embedding: 5 lesions, coverage 0.1. -/
def v5 : List ℚ := List.replicate 120 0 ++ [5, 0, 0, 1/10, 0, 0, 0, 0]

/-- An intermediate embedding: 2 lesions, coverage 0.03 — neither healthy
(2 > 1 lesion) nor significantly diseased (2 < 3 lesions, 0.03 ≤ 0.05). -/
def v8 : List ℚ := List.replicate 120 0 ++ [2, 0, 0, 3/100, 0, 0, 0, 0]

def metaQ : MetaD := { path := some strPathQ, mtype := some strLeafDisease, category := none }
def metaA : MetaD := { path := some strPathA, mtype := some strLeafDisease, category := some strLeafHealthy }
def metaB : MetaD := { path := some strPathB, mtype := some strLeafDisease, category := some strLeafRust }
def metaC : MetaD := { path := some strPathC, mtype := some strLeafDisease, category := some strLeafRust }

/-- A post-insertion query result with three store hits (hit 0 echoes the
query's own vector at distance 0) whose two scored candidates come out at
similarity 41 (category `leaf_healthy`) and 40 (category `leaf_with_disease`). -/
def cexR : QueryResults :=
  { ids := [strIdQ, strIdA, strIdB],
    distances := [0, 79/48, 5/3],
    embeddings := [v0, v0, v0],
    metadatas := [metaQ, metaA, metaB, metaC] }

/-- A post-insertion query result whose single scored candidate has
similarity 39, below the 40 filter. -/
def badR : QueryResults :=
  { ids := [strIdQ, strIdA],
    distances := [0, 27/16],
    embeddings := [v0, v0],
    metadatas := [metaQ, metaA, metaB] }

def vWa : List ℚ := [10, 20]
def vWb : List ℚ := [30, 40]
def metaWa : MetaD := { path := some strPathA, mtype := none, category := some strCatA }
def metaWb : MetaD := { path := some strPathB, mtype := none, category := some strCatB }

/-- A two-hit query result used to witness the metadata-shift theorem. -/
def rShift : QueryResults :=
  { ids := [strIdA, strIdB],
    distances := [1/2, 3/4],
    embeddings := [vWa, vWb],
    metadatas := [metaWa, metaWb] }

def featZero : ImageFeatures :=
  { hsv := default, glcm := default, lbp := default, shape := default }

def featD1 : ImageFeatures :=
  { hsv := default, glcm := default, lbp := default,
    shape := { num_lesions := 10, avg_lesion_size := 20, lesion_size_std := 0,
               disease_coverage := 1/2, lesion_density := 0, avg_compactness := 0,
               avg_distance := 0, std_distance := 0 } }

def featD2 : ImageFeatures :=
  { hsv := default, glcm := default, lbp := default,
    shape := { num_lesions := 3, avg_lesion_size := 7, lesion_size_std := 0,
               disease_coverage := 1/10, lesion_density := 0, avg_compactness := 0,
               avg_distance := 0, std_distance := 0 } }

/-- A classification result with 3 similar images that fires all five risk
rules: confidence 10 < 60, similarity variance well above 225, three distinct
categories (consistency 1/3), similarity gap 55 > 20 and large shape
variability. -/
def crAllRules : AnalysisResult :=
  { identified_category := strCatA, confidence := 10, best_match := 95,
    category_distribution := [],
    similar_images :=
      [ { id := strIdA, category := strCatA, path := strPathA, similarity := 95,
          metadata := default, features := featZero },
        { id := strIdB, category := strCatB, path := strPathB, similarity := 50,
          metadata := default, features := featD1 },
        { id := strIdC, category := strCatC, path := strPathC, similarity := 40,
          metadata := default, features := featD2 } ] }

/-- Scenario B of the specification: five `leaf_healthy` matches with
similarities 85, 82, 78, 75, 70 and confidence 80 — no risk rule fires. -/
def crScenarioB : AnalysisResult :=
  { identified_category := strLeafHealthy, confidence := 80, best_match := 85,
    category_distribution := [],
    similar_images :=
      [ { id := strIdA, category := strLeafHealthy, path := strPathA, similarity := 85,
          metadata := default, features := featZero },
        { id := strIdB, category := strLeafHealthy, path := strPathB, similarity := 82,
          metadata := default, features := featZero },
        { id := strIdC, category := strLeafHealthy, path := strPathC, similarity := 78,
          metadata := default, features := featZero },
        { id := strIdQ, category := strLeafHealthy, path := strPathQ, similarity := 75,
          metadata := default, features := featZero },
        { id := strIdQ, category := strLeafHealthy, path := strPathQ, similarity := 70,
          metadata := default, features := featZero } ] }

/-- A classification result with only two similar images. -/
def crTwo : AnalysisResult :=
  { identified_category := strLeafHealthy, confidence := 90, best_match := 95,
    category_distribution := [],
    similar_images :=
      [ { id := strIdA, category := strLeafHealthy, path := strPathA, similarity := 95,
          metadata := default, features := featZero },
        { id := strIdB, category := strLeafHealthy, path := strPathB, similarity := 90,
          metadata := default, features := featZero } ] }

/-! ### Shared facts about the similarity classifier -/

/-- An embedding cannot be both healthy and significantly diseased: the
classes of lines 220-224 are disjoint. -/
theorem not_healthy_and_significant (e : List ℚ) :
    ¬ (is_healthy e = true ∧ has_significant_lesions e = true) := by
  rintro ⟨h1, h2⟩
  unfold is_healthy at h1
  unfold has_significant_lesions at h2
  simp only [Bool.and_eq_true, Bool.or_eq_true, decide_eq_true_eq] at h1 h2
  rcases h2 with h2 | h2
  · linarith [h1.1]
  · linarith [h1.2]

/-! ### Claim C4 -/

/-- C4: whenever one side is healthy (lesion count ≤ 1 and coverage < 0.02)
and the other significantly diseased (lesion count ≥ 3 or coverage > 0.05),
`calculate_similarity` returns exactly 5, for every distance — the terminal
branch of line 228, reached before blending, penalties, bonus, floor or
cap. -/
theorem healthy_vs_diseased_terminal_similarity (dist : ℚ) (e1 e2 : List ℚ)
    (h : (is_healthy e1 = true ∧ has_significant_lesions e2 = true) ∨
         (is_healthy e2 = true ∧ has_significant_lesions e1 = true)) :
    calculate_similarity dist e1 e2 = 5 := by
  have hb : healthyVsDiseased e1 e2 = true := by
    unfold healthyVsDiseased
    rcases h with ⟨h1, h2⟩ | ⟨h1, h2⟩ <;> simp [h1, h2]
  unfold calculate_similarity
  simp [hb]

/-- Scenario A of the specification: a query with 0 lesions and coverage 0
against a candidate with 5 lesions and coverage 0.1 scores exactly 5 (here at
distance 0.7). -/
theorem healthy_vs_diseased_terminal_similarity_witness :
    calculate_similarity (7/10) v0 v5 = 5 :=
  healthy_vs_diseased_terminal_similarity (7/10) v0 v5
    (Or.inl ⟨by decide, by decide⟩)

/-! ### Claim C2 -/

/-- C2 (code bug): on an image with no green pixels the LeafMask is all-zero,
and `extract_disease_features` does not resolve the masked statistics to the
defined zero sub-vectors: `np.mean`/`np.std` over the empty selection yield
NaN and `np.percentile` raises IndexError (lines 61-85), modelled by the
extractor returning `none` — evaluated here at a concrete 2×2 image with an
empty leaf mask. -/
theorem extract_features_crashes_on_empty_leaf_mask :
    extract_disease_features id id 3 2 2 (fun _ _ => 0) (fun _ _ => 0) (fun _ _ => 0)
      (fun _ _ => 0) (fun _ _ => false) (fun _ _ => false) [] = none := by
  decide

/-! ### Claim C7 -/

/-- C7 counterexample: at a concrete result with only two similar images the
predictor does return HIGH risk, but — contrary to the claim's "(and a risk
score)" — the early return of lines 94-99 carries no risk score at all. -/
theorem two_matches_high_risk_lacks_score :
    (predict_revocation_risk crTwo).revocation_risk = strAlto ∧
    (predict_revocation_risk crTwo).risk_score = none := by
  constructor <;> decide

/-- C7 as amended: for every classification result with fewer than 3 similar
images the predictor does not raise; it returns risk level HIGH ("ALTO") with
the single explanatory reason "Dados insuficientes para análise"
("insufficient data") and confidence 0, and no risk score or factor list. -/
theorem insufficient_data_returns_high_without_score (cr : AnalysisResult)
    (h : cr.similar_images.length < 3) :
    predict_revocation_risk cr =
      { revocation_risk := strAlto, risk_score := none, confidence := 0,
        risk_factors := none, reason := some strInsufReason } := by
  unfold predict_revocation_risk extract_confidence_features
  rw [if_pos h]

/-- The amended C7 at the concrete two-image input. -/
theorem insufficient_data_returns_high_without_score_witness :
    predict_revocation_risk crTwo =
      { revocation_risk := strAlto, risk_score := none, confidence := 0,
        risk_factors := none, reason := some strInsufReason } :=
  insufficient_data_returns_high_without_score crTwo (by decide)

/-! ### Claim C6 -/

/-- The accumulated rule-based risk score of lines 101-128, as a function of
the extracted confidence features (`np.std > 15` and `np.std > 0.5` embedded
as `variance > 225` and `variance > 1/4`). -/
def riskScoreSum (f : ConfidenceFeatures) : ℚ :=
  (if f.confidence < 60 then 2/5 else 0) +
  (if 225 < f.var_similarity then 3/10 else 0) +
  (if f.category_consistency < 3/5 then 3/10 else 0) +
  (if 20 < f.similarity_gap then 1/5 else 0) +
  (if 1/4 < f.var_shape then 1/5 else 0)

/-- C6 counterexample: a result with 3 similar images for which all five risk
rules fire; the accumulated risk score is 1.4, outside [0, 1]. -/
theorem risk_score_can_exceed_one :
    (predict_revocation_risk crAllRules).risk_score = some (7/5) ∧
    ¬ ((7/5 : ℚ) ≤ 1) := by
  constructor
  · decide
  · norm_num

/-- C6 as amended: for every classification result with at least 3 similar
images, the risk score is exactly the sum of the five rule increments
(0.4, 0.3, 0.3, 0.2, 0.2), hence it lies in [0, 1.4] — not [0, 1] — before
thresholding, and the level is HIGH ("ALTO") when the score ≥ 0.8, MEDIUM
("MÉDIO") when ≥ 0.5, else LOW ("BAIXO"). -/
theorem risk_score_formula_bounds_and_levels (cr : AnalysisResult)
    (h : 3 ≤ cr.similar_images.length) :
    ∃ f, extract_confidence_features cr = some f ∧
      (predict_revocation_risk cr).risk_score = some (riskScoreSum f) ∧
      0 ≤ riskScoreSum f ∧ riskScoreSum f ≤ 7/5 ∧
      (predict_revocation_risk cr).revocation_risk =
        (if 4/5 ≤ riskScoreSum f then strAlto
         else if 1/2 ≤ riskScoreSum f then strMedio else strBaixo) := by
  have hne : ¬ (cr.similar_images.length < 3) := not_lt.mpr h
  obtain ⟨f, hf⟩ : ∃ f, extract_confidence_features cr = some f := by
    unfold extract_confidence_features
    rw [if_neg hne]
    exact ⟨_, rfl⟩
  refine ⟨f, hf, ?_, ?_, ?_, ?_⟩
  · unfold predict_revocation_risk
    rw [hf]
    rfl
  · unfold riskScoreSum
    split_ifs <;> norm_num
  · unfold riskScoreSum
    split_ifs <;> norm_num
  · unfold predict_revocation_risk
    rw [hf]
    rfl

/-- The amended C6 at Scenario B of the specification (five `leaf_healthy`
matches at 85/82/78/75/70, confidence 80): no rule fires. -/
theorem risk_score_formula_bounds_and_levels_witness :
    ∃ f, extract_confidence_features crScenarioB = some f ∧
      (predict_revocation_risk crScenarioB).risk_score = some (riskScoreSum f) ∧
      0 ≤ riskScoreSum f ∧ riskScoreSum f ≤ 7/5 ∧
      (predict_revocation_risk crScenarioB).revocation_risk =
        (if 4/5 ≤ riskScoreSum f then strAlto
         else if 1/2 ≤ riskScoreSum f then strMedio else strBaixo) :=
  risk_score_formula_bounds_and_levels crScenarioB (by decide)

/-! ### Claim C8 -/

/-- Modelled from the claim's wording for C8: the similarity pipeline with the
bucket penalties applied to every non-terminal pair — the buckets including
delta exactly zero — instead of only when the corresponding delta is
strictly positive. -/
def claimedPenaltySimilarity (dist : ℚ) (e1 e2 : List ℚ) : ℚ :=
  if healthyVsDiseased e1 e2 then 5
  else
    let fs := clamped_similarity dist e1 e2 * lesion_penalty (lesion_diff e1 e2)
      * area_penalty (area_diff e1 e2)
    let fs := if lesion_diff e1 e2 ≤ 2 ∧ area_diff e1 e2 ≤ 1/20 then min 100 (fs * (6/5)) else fs
    let fs := if has_significant_lesions e1 && has_significant_lesions e2 then max 30 fs else fs
    round1 (min 95 fs)

/-- C8 counterexample: for the non-terminal pair (v8, v8) at distance 0.5 both
deltas are exactly zero; the code returns 95 (no penalty applied), while the
claimed pipeline — which multiplies by 0.90 and 0.95 even at delta zero —
would return 87.2. -/
theorem zero_delta_pair_receives_no_penalty :
    calculate_similarity (1/2) v8 v8 = 95 ∧
    claimedPenaltySimilarity (1/2) v8 v8 = 436/5 ∧
    (95 : ℚ) ≠ 436/5 := by
  refine ⟨by decide, by decide, by norm_num⟩

/-- C8 as amended: for every pair not in the terminal healthy-vs-diseased
case, the clamped blended similarity is multiplied by the |Δlesion| bucket
factor (≤2 → 0.90, ≤4 → 0.80, ≤6 → 0.70, else 0.60) and the |Δcoverage|
bucket factor (≤0.05 → 0.95, ≤0.10 → 0.85, ≤0.15 → 0.75, else 0.65) — but
each penalty only when its delta is strictly positive; a delta of exactly
zero receives factor 1.  The result then goes through bonus, disease floor,
the 95 cap and rounding. -/
theorem penalties_skip_zero_delta (dist : ℚ) (e1 e2 : List ℚ)
    (h : healthyVsDiseased e1 e2 = false) :
    after_area_penalty dist e1 e2 =
      clamped_similarity dist e1 e2 *
        (if 0 < lesion_diff e1 e2 then
          (if lesion_diff e1 e2 ≤ 2 then 9/10 else if lesion_diff e1 e2 ≤ 4 then 4/5
           else if lesion_diff e1 e2 ≤ 6 then 7/10 else 3/5)
         else 1) *
        (if 0 < area_diff e1 e2 then
          (if area_diff e1 e2 ≤ 1/20 then 19/20 else if area_diff e1 e2 ≤ 1/10 then 17/20
           else if area_diff e1 e2 ≤ 3/20 then 3/4 else 13/20)
         else 1) ∧
    calculate_similarity dist e1 e2 =
      round1 (min 95 (after_disease_floor dist e1 e2)) := by
  constructor
  · unfold after_area_penalty after_lesion_penalty lesion_penalty area_penalty
    split_ifs <;> ring
  · unfold calculate_similarity
    simp [h]

/-- The amended C8 at the concrete non-terminal pair (v8, v5) at distance
0.5 (|Δlesion| = 3, |Δcoverage| = 0.07). -/
theorem penalties_skip_zero_delta_witness :
    after_area_penalty (1/2) v8 v5 =
      clamped_similarity (1/2) v8 v5 *
        (if 0 < lesion_diff v8 v5 then
          (if lesion_diff v8 v5 ≤ 2 then 9/10 else if lesion_diff v8 v5 ≤ 4 then 4/5
           else if lesion_diff v8 v5 ≤ 6 then 7/10 else 3/5)
         else 1) *
        (if 0 < area_diff v8 v5 then
          (if area_diff v8 v5 ≤ 1/20 then 19/20 else if area_diff v8 v5 ≤ 1/10 then 17/20
           else if area_diff v8 v5 ≤ 3/20 then 3/4 else 13/20)
         else 1) ∧
    calculate_similarity (1/2) v8 v5 =
      round1 (min 95 (after_disease_floor (1/2) v8 v5)) :=
  penalties_skip_zero_delta (1/2) v8 v5 (by decide)

/-! ### Claim C1 -/

/-- A list's `headD` is its `getD 0`. -/
theorem headD_eq_getD {α : Type} (l : List α) (d : α) : l.headD d = l.getD 0 d := by
  cases l <;> rfl

/-- C1: `query_embedding` inserts the query's metadata at position 0 of the
metadata list only, so `analyze_query_results` pairs the candidate at loop
index i (1-based, line 345) with the distance and embedding of store hit i
but with the metadata of store hit i−1; the embedding of store hit 0 is used
as the query's own vector, and hit 0's distance/embedding are never iterated
(the triple stream is exactly the tails of the distance and embedding lists);
the similarity of every kept candidate is computed against that hit-0
embedding.  The insertion is unconditional — `m` is the caller's metadata or
the built-in default — so this holds whether or not the query image was
previously added to the store. -/
theorem query_metadata_shift_misaligns_candidates (m : MetaD) (r : QueryResults)
    (n i : ℕ) (hd : r.distances.length = n) (he : r.embeddings.length = n)
    (hm : r.metadatas.length = n) (h1 : 1 ≤ i) (h2 : i < n) :
    (candidateTriples (insertQueryMetadata m r)).map Prod.fst = r.distances.drop 1 ∧
    (candidateTriples (insertQueryMetadata m r))[i - 1]? =
      some (r.distances.getD i 0, r.embeddings.getD i [], r.metadatas.getD (i - 1) default) ∧
    queryEmbOf (insertQueryMetadata m r) = r.embeddings.getD 0 [] ∧
    simsOf (insertQueryMetadata m r) =
      (keptCandidates (insertQueryMetadata m r)).map
        (fun c => calculate_similarity c.1 (queryEmbOf (insertQueryMetadata m r)) c.2.1) := by
  have hins : candidateTriples (insertQueryMetadata m r) =
      zip3L (r.distances.drop 1) (r.embeddings.drop 1) r.metadatas := rfl
  refine ⟨?_, ?_, ?_, rfl⟩
  · rw [hins]
    apply zip3L_map_fst
    · simp [hd, he]
    · simp [hd, hm]
  · rw [hins]
    have hdi : (r.distances.drop 1)[i - 1]? = some (r.distances.getD i 0) := by
      rw [List.getElem?_drop]
      have hidx : 1 + (i - 1) = i := by omega
      rw [hidx]
      have hlt : i < r.distances.length := by omega
      rw [List.getElem?_eq_getElem hlt, List.getD_eq_getElem r.distances 0 hlt]
    have hei : (r.embeddings.drop 1)[i - 1]? = some (r.embeddings.getD i []) := by
      rw [List.getElem?_drop]
      have hidx : 1 + (i - 1) = i := by omega
      rw [hidx]
      have hlt : i < r.embeddings.length := by omega
      rw [List.getElem?_eq_getElem hlt, List.getD_eq_getElem r.embeddings [] hlt]
    have hmi : r.metadatas[i - 1]? = some (r.metadatas.getD (i - 1) default) := by
      have hlt : i - 1 < r.metadatas.length := by omega
      rw [List.getElem?_eq_getElem hlt, List.getD_eq_getElem r.metadatas default hlt]
    exact zip3L_getElem? _ _ _ _ _ _ _ hdi hei hmi
  · show r.embeddings.headD [] = r.embeddings.getD 0 []
    exact headD_eq_getD r.embeddings []

/-- The pairing theorem at a concrete two-hit query result: the single
iterated candidate carries hit 1's distance and embedding but hit 0's
metadata. -/
theorem query_metadata_shift_misaligns_candidates_witness :
    (candidateTriples (insertQueryMetadata metaQ rShift)).map Prod.fst =
      rShift.distances.drop 1 ∧
    (candidateTriples (insertQueryMetadata metaQ rShift))[0]? =
      some (rShift.distances.getD 1 0, rShift.embeddings.getD 1 [],
        rShift.metadatas.getD 0 default) ∧
    queryEmbOf (insertQueryMetadata metaQ rShift) = rShift.embeddings.getD 0 [] ∧
    simsOf (insertQueryMetadata metaQ rShift) =
      (keptCandidates (insertQueryMetadata metaQ rShift)).map
        (fun c => calculate_similarity c.1 (queryEmbOf (insertQueryMetadata metaQ rShift)) c.2.1) :=
  query_metadata_shift_misaligns_candidates metaQ rShift 2 1
    (by decide) (by decide) (by decide) (by decide) (by decide)

/-! ### Claim C5 -/

theorem clamped_similarity_nonneg (d : ℚ) (e1 e2 : List ℚ) :
    0 ≤ clamped_similarity d e1 e2 := le_max_left 0 _

theorem clamped_similarity_le_100 (d : ℚ) (e1 e2 : List ℚ) :
    clamped_similarity d e1 e2 ≤ 100 :=
  max_le (by norm_num) (min_le_left _ _)

theorem lesion_penalty_nonneg (d : ℚ) : 0 ≤ lesion_penalty d := by
  unfold lesion_penalty; split_ifs <;> norm_num

theorem lesion_penalty_le_one (d : ℚ) : lesion_penalty d ≤ 1 := by
  unfold lesion_penalty; split_ifs <;> norm_num

theorem area_penalty_nonneg (d : ℚ) : 0 ≤ area_penalty d := by
  unfold area_penalty; split_ifs <;> norm_num

theorem area_penalty_le_one (d : ℚ) : area_penalty d ≤ 1 := by
  unfold area_penalty; split_ifs <;> norm_num

theorem after_lesion_penalty_nonneg (d : ℚ) (e1 e2 : List ℚ) :
    0 ≤ after_lesion_penalty d e1 e2 := by
  unfold after_lesion_penalty
  split_ifs
  · exact mul_nonneg (clamped_similarity_nonneg d e1 e2) (lesion_penalty_nonneg _)
  · exact clamped_similarity_nonneg d e1 e2

theorem after_lesion_penalty_le_100 (d : ℚ) (e1 e2 : List ℚ) :
    after_lesion_penalty d e1 e2 ≤ 100 := by
  unfold after_lesion_penalty
  split_ifs
  · calc clamped_similarity d e1 e2 * lesion_penalty (lesion_diff e1 e2)
        ≤ 100 * 1 := by
          apply mul_le_mul (clamped_similarity_le_100 d e1 e2) (lesion_penalty_le_one _)
            (lesion_penalty_nonneg _) (by norm_num)
    _ = 100 := by norm_num
  · exact clamped_similarity_le_100 d e1 e2

theorem after_area_penalty_nonneg (d : ℚ) (e1 e2 : List ℚ) :
    0 ≤ after_area_penalty d e1 e2 := by
  unfold after_area_penalty
  split_ifs
  · exact mul_nonneg (after_lesion_penalty_nonneg d e1 e2) (area_penalty_nonneg _)
  · exact after_lesion_penalty_nonneg d e1 e2

theorem after_area_penalty_le_100 (d : ℚ) (e1 e2 : List ℚ) :
    after_area_penalty d e1 e2 ≤ 100 := by
  unfold after_area_penalty
  split_ifs
  · calc after_lesion_penalty d e1 e2 * area_penalty (area_diff e1 e2)
        ≤ 100 * 1 := by
          apply mul_le_mul (after_lesion_penalty_le_100 d e1 e2) (area_penalty_le_one _)
            (area_penalty_nonneg _) (by norm_num)
    _ = 100 := by norm_num
  · exact after_lesion_penalty_le_100 d e1 e2

theorem after_bonus_nonneg (d : ℚ) (e1 e2 : List ℚ) : 0 ≤ after_bonus d e1 e2 := by
  unfold after_bonus
  split_ifs
  · exact le_min (by norm_num)
      (mul_nonneg (after_area_penalty_nonneg d e1 e2) (by norm_num))
  · exact after_area_penalty_nonneg d e1 e2

theorem after_bonus_le_100 (d : ℚ) (e1 e2 : List ℚ) : after_bonus d e1 e2 ≤ 100 := by
  unfold after_bonus
  split_ifs
  · exact min_le_left _ _
  · exact after_area_penalty_le_100 d e1 e2

theorem after_disease_floor_nonneg (d : ℚ) (e1 e2 : List ℚ) :
    0 ≤ after_disease_floor d e1 e2 := by
  unfold after_disease_floor
  split_ifs
  · exact le_trans (by norm_num) (le_max_left 30 _)
  · exact after_bonus_nonneg d e1 e2

theorem after_disease_floor_le_100 (d : ℚ) (e1 e2 : List ℚ) :
    after_disease_floor d e1 e2 ≤ 100 := by
  unfold after_disease_floor
  split_ifs
  · exact max_le (by norm_num) (after_bonus_le_100 d e1 e2)
  · exact after_bonus_le_100 d e1 e2

theorem round1_95 : round1 (95 : ℚ) = 95 := by decide

/-- Two identical, significantly diseased embeddings at distance 0 score
exactly 95: base, lesion and area similarities all reach 100, the zero deltas
skip both penalties, the bonus caps at 100, and the final 95 cap bites. -/
theorem identical_significant_similarity (e : List ℚ)
    (hsig : has_significant_lesions e = true) :
    calculate_similarity 0 e e = 95 := by
  have hnh : is_healthy e = false := by
    cases hh : is_healthy e
    · rfl
    · exact absurd ⟨hh, hsig⟩ (not_healthy_and_significant e)
  have hterm : healthyVsDiseased e e = false := by
    unfold healthyVsDiseased
    simp [hnh]
  have hld : lesion_diff e e = 0 := by unfold lesion_diff; simp
  have had : area_diff e e = 0 := by unfold area_diff; simp
  have hls : lesion_similarity e e = 100 := by
    unfold lesion_similarity
    simp only [hld]
    split_ifs with hmax
    · rw [zero_div]; ring
    · rfl
  have has : area_similarity e e = 100 := by
    unfold area_similarity
    rw [had]
    norm_num
  have hbl : blended_similarity 0 e e = 100 := by
    unfold blended_similarity base_similarity
    simp [hnh, hsig, hls, has]
    norm_num
  have hcl : clamped_similarity 0 e e = 100 := by
    unfold clamped_similarity
    rw [hbl]
    norm_num
  have hal : after_lesion_penalty 0 e e = 100 := by
    unfold after_lesion_penalty
    rw [hld]
    simp [hcl]
  have haa : after_area_penalty 0 e e = 100 := by
    unfold after_area_penalty
    rw [had]
    simp [hal]
  have hbo : after_bonus 0 e e = 100 := by
    unfold after_bonus
    rw [hld, had, haa]
    norm_num
  have hfl : after_disease_floor 0 e e = 100 := by
    unfold after_disease_floor
    rw [hbo]
    simp only [hsig, Bool.and_self, if_true]
    norm_num
  unfold calculate_similarity
  rw [hterm]
  simp only [Bool.false_eq_true, if_false, hfl]
  have hmin : min (95 : ℚ) 100 = 95 := by norm_num
  rw [hmin, round1_95]

/-- C5: every similarity returned by `calculate_similarity` lies in [0, 100]
and never in (95, 100] (the 95 cap of line 306 is strict, so 100 is never
returned); and for two identical, significantly diseased vectors at distance
0 the result lands in [80, 95] (it is exactly 95). -/
theorem similarity_range_and_identical_case (dist : ℚ) (e1 e2 : List ℚ) :
    0 ≤ calculate_similarity dist e1 e2 ∧
    calculate_similarity dist e1 e2 ≤ 100 ∧
    ¬ (95 < calculate_similarity dist e1 e2) ∧
    (dist = 0 → e1 = e2 → has_significant_lesions e1 = true →
      80 ≤ calculate_similarity dist e1 e2 ∧ calculate_similarity dist e1 e2 ≤ 95) := by
  have hb : 0 ≤ calculate_similarity dist e1 e2 ∧ calculate_similarity dist e1 e2 ≤ 95 := by
    unfold calculate_similarity
    split_ifs with hterm
    · norm_num
    · constructor
      · exact round1_nonneg
          (le_min (by norm_num) (after_disease_floor_nonneg dist e1 e2))
      · have h95 : min (95 : ℚ) (after_disease_floor dist e1 e2) ≤ ((95 : ℤ) : ℚ) := by
          push_cast
          exact min_le_left _ _
        have := round1_le h95
        push_cast at this
        exact this
  refine ⟨hb.1, le_trans hb.2 (by norm_num), not_lt.mpr hb.2, ?_⟩
  intro hd he hsig
  subst hd
  subst he
  rw [identical_significant_similarity e1 hsig]
  norm_num

/-- The range theorem at the concrete significantly diseased pair (v5, v5)
at distance 0, where the identical-case hypotheses hold. -/
theorem similarity_range_and_identical_case_witness :
    0 ≤ calculate_similarity 0 v5 v5 ∧
    calculate_similarity 0 v5 v5 ≤ 100 ∧
    ¬ (95 < calculate_similarity 0 v5 v5) ∧
    (80 ≤ calculate_similarity 0 v5 v5 ∧ calculate_similarity 0 v5 v5 ≤ 95) := by
  have h := similarity_range_and_identical_case 0 v5 v5
  exact ⟨h.1, h.2.1, h.2.2.1, h.2.2.2 rfl rfl (by decide)⟩

/-! ### Claim C3 -/

theorem histCounts_length (bins top : ℕ) (vals : List ℕ) :
    (histCounts bins top vals).length = bins := by
  simp [histCounts]

theorem colorHistBlock_length (H W : ℕ) (hC sC vC : ℕ → ℕ → ℕ) (mask : ℕ → ℕ → Bool) :
    (colorHistBlock H W hC sC vC mask).length = 96 := by
  unfold colorHistBlock
  dsimp only
  split_ifs <;> simp [histCounts_length]

theorem channel_stats_length (sq : ℚ → ℚ) (vals : List ℕ) :
    (channel_stats sq vals).length = 4 := rfl

theorem hsvStatsBlock_length (sq : ℚ → ℚ) (H W : ℕ) (hC sC vC : ℕ → ℕ → ℕ)
    (mask : ℕ → ℕ → Bool) : (hsvStatsBlock sq H W hC sC vC mask).length = 12 := by
  unfold hsvStatsBlock
  simp [channel_stats_length]

theorem calculate_glcm_features_length (sq lg : ℚ → ℚ) (H W : ℕ) (gray : ℕ → ℕ → ℕ)
    (disease : ℕ → ℕ → Bool) : (calculate_glcm_features sq lg H W gray disease).length = 8 := by
  unfold calculate_glcm_features
  split_ifs <;> rfl

theorem calculate_lbp_length (sq lg : ℚ → ℚ) (H W : ℕ) (gray : ℕ → ℕ → ℕ)
    (disease : ℕ → ℕ → Bool) : (calculate_lbp sq lg H W gray disease).length = 4 := by
  unfold calculate_lbp
  split_ifs <;> rfl

theorem shape_features_length (sq : ℚ → ℚ) (piq leafArea : ℚ) (contours : List Contour) :
    (shape_features sq piq leafArea contours).length = 8 := by
  unfold shape_features
  dsimp only
  split_ifs <;> rfl

theorem glcmPairs_nil (H W : ℕ) (gray : ℕ → ℕ → ℕ) (disease : ℕ → ℕ → Bool)
    (h0 : ∀ i j, disease i j = false) : glcmPairs H W gray disease = [] := by
  unfold glcmPairs
  apply List.eq_nil_iff_forall_not_mem.mpr
  intro x hx
  simp only [List.mem_bind, List.mem_map, List.mem_filter, h0, Bool.and_false,
    Bool.false_and, List.mem_range] at hx
  obtain ⟨o, _, i, _, j, ⟨_, hfalse⟩, _⟩ := hx
  exact absurd hfalse (by simp)

theorem maskPixels_nil (H W : ℕ) (disease : ℕ → ℕ → Bool)
    (h0 : ∀ i j, disease i j = false) : maskPixels H W disease = [] := by
  unfold maskPixels
  apply List.eq_nil_iff_forall_not_mem.mpr
  intro x hx
  simp only [List.mem_bind, List.mem_map, List.mem_filter, h0, List.mem_range] at hx
  obtain ⟨i, _, j, ⟨_, hfalse⟩, _⟩ := hx
  exact absurd hfalse (by simp)

theorem calculate_glcm_features_zero (sq lg : ℚ → ℚ) (H W : ℕ) (gray : ℕ → ℕ → ℕ)
    (disease : ℕ → ℕ → Bool) (h0 : ∀ i j, disease i j = false) :
    calculate_glcm_features sq lg H W gray disease = [0, 0, 0, 0, 0, 0, 0, 0] := by
  unfold calculate_glcm_features
  rw [glcmPairs_nil H W gray disease h0]
  rfl

theorem calculate_lbp_zero (sq lg : ℚ → ℚ) (H W : ℕ) (gray : ℕ → ℕ → ℕ)
    (disease : ℕ → ℕ → Bool) (h0 : ∀ i j, disease i j = false) :
    calculate_lbp sq lg H W gray disease = [0, 0, 0, 0] := by
  unfold calculate_lbp
  rw [maskPixels_nil H W disease h0]
  rfl

theorem shape_features_zero (sq : ℚ → ℚ) (piq leafArea : ℚ) :
    shape_features sq piq leafArea [] = [0, 0, 0, 0, 0, 0, 0, 0] := by
  rfl

/-- C3: whenever the feature extractor produces a vector, that vector has
exactly 128 values, laid out as the concatenation of the 96-value color
histogram block, the 12-value HSV statistics block ([96,108)), the 8-value
GLCM block ([108,116)), the 4-value LBP block ([116,120)) and the 8-value
shape block ([120,128)); and whenever the disease mask is empty (so that
`cv2.findContours` yields no contours), the twenty values at indices
[108,128) are identically zero. -/
theorem feature_vector_layout_and_zero_blocks (sq lg : ℚ → ℚ) (piq : ℚ) (H W : ℕ)
    (hC sC vC gray : ℕ → ℕ → ℕ) (mask disease : ℕ → ℕ → Bool)
    (contours : List Contour) (v : List ℚ)
    (hv : extract_disease_features sq lg piq H W hC sC vC gray mask disease contours = some v) :
    v.length = 128 ∧
    v = colorHistBlock H W hC sC vC mask ++ hsvStatsBlock sq H W hC sC vC mask
      ++ calculate_glcm_features sq lg H W gray disease
      ++ calculate_lbp sq lg H W gray disease
      ++ shape_features sq piq (maskedCount H W mask : ℚ) contours ∧
    (colorHistBlock H W hC sC vC mask).length = 96 ∧
    (hsvStatsBlock sq H W hC sC vC mask).length = 12 ∧
    (calculate_glcm_features sq lg H W gray disease).length = 8 ∧
    (calculate_lbp sq lg H W gray disease).length = 4 ∧
    (shape_features sq piq (maskedCount H W mask : ℚ) contours).length = 8 ∧
    ((∀ i j, disease i j = false) → contours = [] →
      v.drop 108 = List.replicate 20 (0 : ℚ)) := by
  have hveq : v = colorHistBlock H W hC sC vC mask ++ hsvStatsBlock sq H W hC sC vC mask
      ++ calculate_glcm_features sq lg H W gray disease
      ++ calculate_lbp sq lg H W gray disease
      ++ shape_features sq piq (maskedCount H W mask : ℚ) contours := by
    unfold extract_disease_features at hv
    split_ifs at hv
    exact (Option.some.inj hv).symm
  refine ⟨?_, hveq, colorHistBlock_length H W hC sC vC mask,
    hsvStatsBlock_length sq H W hC sC vC mask,
    calculate_glcm_features_length sq lg H W gray disease,
    calculate_lbp_length sq lg H W gray disease,
    shape_features_length sq piq _ contours, ?_⟩
  · rw [hveq]
    simp [List.length_append, colorHistBlock_length, hsvStatsBlock_length,
      calculate_glcm_features_length, calculate_lbp_length, shape_features_length]
  · intro h0 h1
    subst h1
    rw [hveq, calculate_glcm_features_zero sq lg H W gray disease h0,
      calculate_lbp_zero sq lg H W gray disease h0, shape_features_zero]
    simp only [List.append_assoc]
    rw [← List.append_assoc]
    have h108 : (108 : ℕ) = ((colorHistBlock H W hC sC vC mask
        ++ hsvStatsBlock sq H W hC sC vC mask)).length := by
      simp [List.length_append, colorHistBlock_length, hsvStatsBlock_length]
    rw [h108, List.drop_left]
    decide

/-- A 2×2 image with a full leaf mask, empty disease mask and no contours:
the extractor succeeds with the concrete 128-value vector `vW`. -/
def vW : List ℚ := ((1 : ℚ) :: List.replicate 31 0) ++ ((1 : ℚ) :: List.replicate 31 0)
  ++ ((1 : ℚ) :: List.replicate 31 0) ++ List.replicate 32 0

/-- The layout theorem at the concrete 2×2 input: the produced vector has 128
values and its tail [108,128) is identically zero. -/
theorem feature_vector_layout_and_zero_blocks_witness :
    vW.length = 128 ∧ vW.drop 108 = List.replicate 20 (0 : ℚ) := by
  have h : extract_disease_features id id 3 2 2 (fun _ _ => 0) (fun _ _ => 0) (fun _ _ => 0)
      (fun _ _ => 0) (fun _ _ => true) (fun _ _ => false) [] = some vW := by decide
  have main := feature_vector_layout_and_zero_blocks id id 3 2 2 (fun _ _ => 0) (fun _ _ => 0)
    (fun _ _ => 0) (fun _ _ => 0) (fun _ _ => true) (fun _ _ => false) [] vW h
  exact ⟨main.1, main.2.2.2.2.2.2.2 (fun i j => rfl) rfl⟩

/-! ### Facts about the analysis pipeline (shared by the filtering and
distribution claims) -/

theorem mem_insertBySimDesc (x y : SimilarImage) (l : List SimilarImage) :
    y ∈ insertBySimDesc x l ↔ y = x ∨ y ∈ l := by
  induction l with
  | nil => simp [insertBySimDesc]
  | cons a t ih =>
    simp only [insertBySimDesc]
    split
    · simp only [List.mem_cons]
    · simp only [List.mem_cons, ih]
      tauto

theorem mem_sortBySimDesc (y : SimilarImage) (l : List SimilarImage) :
    y ∈ sortBySimDesc l ↔ y ∈ l := by
  induction l with
  | nil => simp [sortBySimDesc]
  | cons a t ih => simp [sortBySimDesc, mem_insertBySimDesc, ih]

theorem length_insertBySimDesc (x : SimilarImage) (l : List SimilarImage) :
    (insertBySimDesc x l).length = l.length + 1 := by
  induction l with
  | nil => rfl
  | cons a t ih =>
    simp only [insertBySimDesc]
    split
    · simp
    · simp [ih]

theorem length_sortBySimDesc (l : List SimilarImage) :
    (sortBySimDesc l).length = l.length := by
  induction l with
  | nil => rfl
  | cons a t ih => simp [sortBySimDesc, length_insertBySimDesc, ih]

/-- Destructuring a successful analysis: the result's fields are the top-5
list and its category distribution, and the valid-index list is nonempty. -/
theorem analyze_some (r : QueryResults) (hl : Bool) (res : AnalysisResult)
    (h : analyze_query_results r hl = some res) :
    res.similar_images = top5Of r ∧
    res.category_distribution = categoryDistributionOf (top5Of r) ∧
    ¬ (validIndicesOf r).isEmpty = true := by
  unfold analyze_query_results at h
  split_ifs at h with h1 h2 h3
  all_goals dsimp only at h
  all_goals (injection h with h4; subst h4; exact ⟨rfl, rfl, h3⟩)

/-- Every record built by `similarImagesOf` carries a similarity that passed
the ≥ 40 filter. -/
theorem mem_similarImagesOf_ge {r : QueryResults} {img : SimilarImage}
    (h : img ∈ similarImagesOf r) : 40 ≤ img.similarity := by
  unfold similarImagesOf at h
  rw [List.mem_map] at h
  obtain ⟨i, hi, rfl⟩ := h
  unfold validIndicesOf at hi
  rw [List.mem_filter] at hi
  have h2 := hi.2
  simp only [decide_eq_true_eq] at h2
  exact h2

theorem mem_top5_similarity_ge (r : QueryResults) (img : SimilarImage)
    (h : img ∈ top5Of r) : 40 ≤ img.similarity := by
  unfold top5Of at h
  have h1 : img ∈ sortBySimDesc (similarImagesOf r) := List.mem_of_mem_take h
  exact mem_similarImagesOf_ge ((mem_sortBySimDesc img _).mp h1)

/-- The three values the category normalization can produce. -/
def normalizedCategories : List String := [strLeafHealthy, strLeafWithDisease, strQuery]

theorem normalizeCategory_mem (m : MetaD) :
    normalizeCategory m ∈ normalizedCategories := by
  unfold normalizeCategory normalizedCategories
  dsimp only
  split_ifs with h1 h2
  · simp
  · simp
  · have : m.category.getD strUnknown = strQuery := not_ne_iff.mp h2
    rw [this]
    simp

theorem length_simsOf_eq_compsOf (r : QueryResults) :
    (simsOf r).length = (compsOf r).length := by
  unfold simsOf compsOf
  simp

theorem getD_mem_of_lt {α : Type} (l : List α) (i : ℕ) (d : α) (h : i < l.length) :
    l.getD i d ∈ l := by
  rw [List.getD_eq_getElem _ _ h]
  exact List.getElem_mem h

/-- Every record built by `similarImagesOf` carries a normalized category. -/
theorem mem_similarImagesOf_category {r : QueryResults} {img : SimilarImage}
    (h : img ∈ similarImagesOf r) : img.category ∈ normalizedCategories := by
  unfold similarImagesOf at h
  rw [List.mem_map] at h
  obtain ⟨i, hi, rfl⟩ := h
  unfold validIndicesOf at hi
  rw [List.mem_filter, List.mem_range] at hi
  have hlt : i < (compsOf r).length := by
    rw [← length_simsOf_eq_compsOf]
    exact hi.1
  have hmem : (compsOf r).getD i (strUnknown, strUnknownPath, default) ∈ compsOf r :=
    getD_mem_of_lt _ i _ hlt
  unfold compsOf at hmem
  rw [List.mem_map] at hmem
  obtain ⟨c, _, hc⟩ := hmem
  show ((compsOf r).getD i (strUnknown, strUnknownPath, default)).1 ∈ normalizedCategories
  have h5 : (compsOf r).getD i (strUnknown, strUnknownPath, default) =
      (normalizeCategory c.2.2, c.2.2.path.getD strUnknownPath, extract_features c.2.1) :=
    hc.symm
  rw [h5]
  exact normalizeCategory_mem c.2.2

theorem mem_top5_category (r : QueryResults) (img : SimilarImage)
    (h : img ∈ top5Of r) : img.category ∈ normalizedCategories := by
  unfold top5Of at h
  have h1 : img ∈ sortBySimDesc (similarImagesOf r) := List.mem_of_mem_take h
  exact mem_similarImagesOf_category ((mem_sortBySimDesc img _).mp h1)

/-- A nonempty valid-index list yields a nonempty top-5 list. -/
theorem top5Of_ne_nil (r : QueryResults) (h3 : ¬ (validIndicesOf r).isEmpty = true) :
    top5Of r ≠ [] := by
  intro hc
  apply h3
  rw [List.isEmpty_iff]
  have hlen : (top5Of r).length = 0 := by rw [hc]; rfl
  unfold top5Of at hlen
  rw [List.length_take, length_sortBySimDesc] at hlen
  have : (similarImagesOf r).length = 0 := by omega
  unfold similarImagesOf at this
  rw [List.length_map] at this
  exact List.length_eq_zero.mp this

/-! ### Claim C9 -/

/-- C9: candidates below similarity 40 are discarded (every similar image in
a successful result scored at least 40); and when no computed similarity
reaches 40 the analysis returns the explicit non-success value `None`
(lines 386-391) rather than an empty successful classification. -/
theorem low_similarity_candidates_discarded (r : QueryResults) (hl : Bool) :
    ((∀ s ∈ simsOf r, s < 40) → analyze_query_results r hl = none) ∧
    (∀ res, analyze_query_results r hl = some res →
      ∀ img ∈ res.similar_images, 40 ≤ img.similarity) := by
  constructor
  · intro h
    unfold analyze_query_results
    split_ifs with h1 h2 h3
    · rfl
    · rfl
    · rfl
    · exfalso
      apply h3
      rw [List.isEmpty_iff]
      unfold validIndicesOf
      apply List.filter_eq_nil.mpr
      intro i hi
      rw [List.mem_range] at hi
      simp only [decide_eq_true_eq]
      intro hge
      have hmem : (simsOf r).getD i 0 ∈ simsOf r := getD_mem_of_lt _ i 0 hi
      exact absurd hge (not_le.mpr (h _ hmem))
  · intro res hres img himg
    have hd := (analyze_some r hl res hres).1
    rw [hd] at himg
    exact mem_top5_similarity_ge r img himg

/-- The filtering theorem at the concrete query result whose only candidate
scores 39: the analysis is inconclusive. -/
theorem low_similarity_candidates_discarded_witness :
    analyze_query_results badR false = none :=
  (low_similarity_candidates_discarded badR false).1 (by decide)

/-! ### Claim C10 -/

theorem sum_map_addQ {α : Type} (l : List α) (f g : α → ℚ) :
    (l.map (fun x => f x + g x)).sum = (l.map f).sum + (l.map g).sum := by
  induction l with
  | nil => simp
  | cons a t ih => simp [ih]; ring

theorem sum_map_mulQ {α : Type} (l : List α) (f : α → ℚ) (k : ℚ) :
    (l.map (fun x => f x * k)).sum = (l.map f).sum * k := by
  induction l with
  | nil => simp
  | cons a t ih => simp [ih]; ring

theorem sum_map_subQ {α : Type} (l : List α) (f g : α → ℚ) :
    (l.map (fun x => f x - g x)).sum = (l.map f).sum - (l.map g).sum := by
  induction l with
  | nil => simp
  | cons a t ih => simp [ih]; ring

theorem abs_sum_le_sum_absQ {α : Type} (l : List α) (f : α → ℚ) :
    |(l.map f).sum| ≤ (l.map (fun x => |f x|)).sum := by
  induction l with
  | nil => simp
  | cons a t ih =>
    simp only [List.map_cons, List.sum_cons]
    calc |f a + (t.map f).sum| ≤ |f a| + |(t.map f).sum| := abs_add _ _
    _ ≤ |f a| + (t.map (fun x => |f x|)).sum := by linarith

theorem sum_map_le_constQ {α : Type} (l : List α) (f : α → ℚ) (k : ℚ)
    (h : ∀ x ∈ l, f x ≤ k) : (l.map f).sum ≤ (l.length : ℚ) * k := by
  induction l with
  | nil => simp
  | cons a t ih =>
    simp only [List.map_cons, List.sum_cons, List.length_cons]
    have h1 := h a (List.mem_cons_self a t)
    have h2 := ih (fun x hx => h x (List.mem_cons_of_mem a hx))
    push_cast
    linarith

theorem categorySimSum_cons (b : SimilarImage) (t : List SimilarImage) (c : String) :
    categorySimSum (b :: t) c =
      (if b.category = c then b.similarity else 0) + categorySimSum t c := by
  unfold categorySimSum
  rw [List.filter_cons]
  by_cases hb : b.category = c
  · simp [hb]
  · simp [hb]

theorem sum_map_if_single : ∀ (K : List String), K.Nodup → ∀ (a : String), a ∈ K →
    ∀ (v : ℚ), (K.map (fun c => if a = c then v else 0)).sum = v := by
  intro K
  induction K with
  | nil => intro _ a ha; simp at ha
  | cons k t ih =>
    intro hnd a ha v
    rw [List.map_cons, List.sum_cons]
    rcases List.mem_cons.mp ha with rfl | hat
    · rw [if_pos rfl]
      have hz : (t.map (fun c => if a = c then v else 0)).sum = 0 := by
        apply List.sum_eq_zero
        intro x hx
        rw [List.mem_map] at hx
        obtain ⟨c, hc, rfl⟩ := hx
        rw [if_neg]
        rintro rfl
        exact (List.nodup_cons.mp hnd).1 hc
      rw [hz]
      ring
    · have hka : ¬ (a = k) := by
        rintro rfl
        exact (List.nodup_cons.mp hnd).1 hat
      rw [if_neg hka, ih (List.nodup_cons.mp hnd).2 a hat v]
      ring

/-- The per-category sums over a complete, duplicate-free key list partition
the total similarity. -/
theorem fiber_sum (K : List String) (hK : K.Nodup) :
    ∀ (l : List SimilarImage), (∀ b ∈ l, b.category ∈ K) →
      (K.map (fun c => categorySimSum l c)).sum = totalSimOf l := by
  intro l
  induction l with
  | nil =>
    intro _
    unfold totalSimOf
    simp only [List.map_nil, List.sum_nil]
    apply List.sum_eq_zero
    intro x hx
    rw [List.mem_map] at hx
    obtain ⟨c, _, rfl⟩ := hx
    rfl
  | cons b t ih =>
    intro hmem
    have hmap : K.map (fun c => categorySimSum (b :: t) c) =
        K.map (fun c => (if b.category = c then b.similarity else 0) + categorySimSum t c) :=
      List.map_congr_left (fun c _ => categorySimSum_cons b t c)
    rw [hmap, sum_map_addQ,
      sum_map_if_single K hK b.category (hmem b (List.mem_cons_self b t)) b.similarity,
      ih (fun x hx => hmem x (List.mem_cons_of_mem b hx))]
    unfold totalSimOf
    simp

theorem totalSimOf_pos (l : List SimilarImage) (hge : ∀ img ∈ l, 40 ≤ img.similarity)
    (hne : l ≠ []) : 0 < totalSimOf l := by
  unfold totalSimOf
  apply List.sum_pos
  · intro x hx
    rw [List.mem_map] at hx
    obtain ⟨img, him, rfl⟩ := hx
    have := hge img him
    linarith
  · simp only [ne_eq, List.map_eq_nil]
    exact hne

/-- There exists an integer z with Σ round1(f c) = z / 10: the rounded
percentages are multiples of one tenth. -/
theorem sum_round1_tenths {α : Type} : ∀ (l : List α) (f : α → ℚ),
    ∃ z : ℤ, (l.map (fun c => round1 (f c))).sum = (z : ℚ) / 10
  | [], _ => ⟨0, by simp⟩
  | a :: t, f => by
      obtain ⟨z, hz⟩ := sum_round1_tenths t f
      refine ⟨roundHalfEven (10 * f a) + z, ?_⟩
      simp only [List.map_cons, List.sum_cons, hz]
      unfold round1
      push_cast
      ring

theorem categoriesOf_length_le (r : QueryResults) :
    (categoriesOf (top5Of r)).length ≤ 3 := by
  have hnd : (categoriesOf (top5Of r)).Nodup := nodup_firstDedup _
  have hsub : ∀ c ∈ categoriesOf (top5Of r), c ∈ normalizedCategories := by
    intro c hc
    unfold categoriesOf at hc
    rw [mem_firstDedup, List.mem_map] at hc
    obtain ⟨img, him, rfl⟩ := hc
    exact mem_top5_category r img him
  have h1 : (categoriesOf (top5Of r)).length = (categoriesOf (top5Of r)).toFinset.card :=
    (List.toFinset_card_of_nodup hnd).symm
  have h2 : (categoriesOf (top5Of r)).toFinset ⊆ normalizedCategories.toFinset := by
    intro c hc
    rw [List.mem_toFinset] at hc ⊢
    exact hsub c hc
  have h3 := Finset.card_le_card h2
  have h4 : normalizedCategories.toFinset.card ≤ 3 := by decide
  omega

/-- C10 counterexample: at a concrete query whose two surviving candidates
score 41 (`leaf_healthy`) and 40 (`leaf_with_disease`), the stored percentage
for `leaf_healthy` is 50.6 — the ratio rounded to one decimal — which is not
equal to the claim's exact value 41/81 × 100 = 50.617... -/
theorem distribution_percentage_differs_from_exact_ratio :
    (analyze_query_results cexR false).map (fun res => res.category_distribution) =
      some [(strLeafHealthy, 253/5), (strLeafWithDisease, 247/5)] ∧
    (253/5 : ℚ) ≠ 41/81 * 100 := by
  constructor
  · decide
  · norm_num

/-- C10 as amended: in every successful classification, each category's
percentage equals that category's summed similarity over the top-5 matches
divided by the total summed similarity, times 100, **rounded to one decimal**
(line 437); and the rounded percentages still sum to 100 within ±0.1 (the
exact ratios sum to exactly 100, at most three normalized categories exist,
each rounding error is at most 0.05, and the rounded sum is a multiple of
0.1). -/
theorem category_distribution_rounded_and_sums_to_100 (r : QueryResults) (hl : Bool)
    (res : AnalysisResult) (h : analyze_query_results r hl = some res) :
    res.category_distribution =
      (categoriesOf res.similar_images).map
        (fun c => (c, round1 (categorySimSum res.similar_images c /
          totalSimOf res.similar_images * 100))) ∧
    |((res.category_distribution.map Prod.snd).sum) - 100| ≤ 1/10 := by
  obtain ⟨hsim, hdist, hval⟩ := analyze_some r hl res h
  constructor
  · rw [hdist, hsim]
    rfl
  · rw [hdist]
    have hmapsnd : ((categoryDistributionOf (top5Of r)).map Prod.snd) =
        (categoriesOf (top5Of r)).map
          (fun c => round1 (categorySimSum (top5Of r) c / totalSimOf (top5Of r) * 100)) := by
      unfold categoryDistributionOf
      rw [List.map_map]
      rfl
    rw [hmapsnd]
    have hge : ∀ img ∈ top5Of r, 40 ≤ img.similarity :=
      fun img him => mem_top5_similarity_ge r img him
    have hne : top5Of r ≠ [] := top5Of_ne_nil r hval
    have hTpos : 0 < totalSimOf (top5Of r) := totalSimOf_pos (top5Of r) hge hne
    have hnd : (categoriesOf (top5Of r)).Nodup := nodup_firstDedup _
    have hcomp : ∀ b ∈ top5Of r, b.category ∈ categoriesOf (top5Of r) := by
      intro b hb
      unfold categoriesOf
      rw [mem_firstDedup, List.mem_map]
      exact ⟨b, hb, rfl⟩
    have hfib : ((categoriesOf (top5Of r)).map
        (fun c => categorySimSum (top5Of r) c)).sum = totalSimOf (top5Of r) :=
      fiber_sum _ hnd _ hcomp
    have hexact : ((categoriesOf (top5Of r)).map
        (fun c => categorySimSum (top5Of r) c / totalSimOf (top5Of r) * 100)).sum = 100 := by
      have hcongr : (categoriesOf (top5Of r)).map
          (fun c => categorySimSum (top5Of r) c / totalSimOf (top5Of r) * 100) =
          (categoriesOf (top5Of r)).map
          (fun c => categorySimSum (top5Of r) c * (100 / totalSimOf (top5Of r))) :=
        List.map_congr_left (fun c _ => by ring)
      rw [hcongr, sum_map_mulQ, hfib]
      field_simp
    have herr : |((categoriesOf (top5Of r)).map
        (fun c => round1 (categorySimSum (top5Of r) c / totalSimOf (top5Of r) * 100))).sum
        - 100| ≤ 3/20 := by
      have hsplit : ((categoriesOf (top5Of r)).map
          (fun c => round1 (categorySimSum (top5Of r) c / totalSimOf (top5Of r) * 100))).sum - 100
          = ((categoriesOf (top5Of r)).map
            (fun c => round1 (categorySimSum (top5Of r) c / totalSimOf (top5Of r) * 100)
              - categorySimSum (top5Of r) c / totalSimOf (top5Of r) * 100)).sum := by
        rw [sum_map_subQ, hexact]
      rw [hsplit]
      have hstep1 := abs_sum_le_sum_absQ (categoriesOf (top5Of r))
        (fun c => round1 (categorySimSum (top5Of r) c / totalSimOf (top5Of r) * 100)
          - categorySimSum (top5Of r) c / totalSimOf (top5Of r) * 100)
      have hstep2 := sum_map_le_constQ (categoriesOf (top5Of r))
        (fun c => |round1 (categorySimSum (top5Of r) c / totalSimOf (top5Of r) * 100)
          - categorySimSum (top5Of r) c / totalSimOf (top5Of r) * 100|) (1/20)
        (fun c _ => abs_round1_sub_le _)
      have hlen : ((categoriesOf (top5Of r)).length : ℚ) ≤ 3 := by
        exact_mod_cast categoriesOf_length_le r
      have hstep3 : ((categoriesOf (top5Of r)).length : ℚ) * (1/20) ≤ 3/20 := by linarith
      calc |((categoriesOf (top5Of r)).map
            (fun c => round1 (categorySimSum (top5Of r) c / totalSimOf (top5Of r) * 100)
              - categorySimSum (top5Of r) c / totalSimOf (top5Of r) * 100)).sum|
          ≤ ((categoriesOf (top5Of r)).map
            (fun c => |round1 (categorySimSum (top5Of r) c / totalSimOf (top5Of r) * 100)
              - categorySimSum (top5Of r) c / totalSimOf (top5Of r) * 100|)).sum := hstep1
        _ ≤ ((categoriesOf (top5Of r)).length : ℚ) * (1/20) := hstep2
        _ ≤ 3/20 := hstep3
    obtain ⟨z, hz⟩ := sum_round1_tenths (categoriesOf (top5Of r))
      (fun c => categorySimSum (top5Of r) c / totalSimOf (top5Of r) * 100)
    rw [hz] at herr ⊢
    have hfin : |(z : ℚ)/10 - 100| = |(z : ℚ) - 1000| / 10 := by
      rw [show (z : ℚ)/10 - 100 = ((z : ℚ) - 1000)/10 from by ring, abs_div,
        abs_of_pos (show (0:ℚ) < 10 by norm_num)]
    rw [hfin] at herr ⊢
    have h32 : |(z : ℚ) - 1000| ≤ 3/2 := by linarith
    have hcast : |(z : ℚ) - 1000| = ((|z - 1000| : ℤ) : ℚ) := by
      push_cast
      rfl
    have hzint : |z - 1000| ≤ 1 := by
      by_contra hc
      push_neg at hc
      have h2 : (2 : ℤ) ≤ |z - 1000| := hc
      have h2q : (2 : ℚ) ≤ ((|z - 1000| : ℤ) : ℚ) := by exact_mod_cast h2
      rw [← hcast] at h2q
      linarith
    have hone : |(z : ℚ) - 1000| ≤ 1 := by
      rw [hcast]
      exact_mod_cast hzint
    linarith

/-- The concrete result of the counterexample query, used to witness the
amended distribution theorem. -/
def resCex : AnalysisResult := (analyze_query_results cexR false).getD default

/-- The amended C10 at the concrete two-candidate query. -/
theorem category_distribution_rounded_and_sums_to_100_witness :
    resCex.category_distribution =
      (categoriesOf resCex.similar_images).map
        (fun c => (c, round1 (categorySimSum resCex.similar_images c /
          totalSimOf resCex.similar_images * 100))) ∧
    |((resCex.category_distribution.map Prod.snd).sum) - 100| ≤ 1/10 :=
  category_distribution_rounded_and_sums_to_100 cexR false resCex (by decide)
